import Mathlib

/-!
Verification of the bossa-web NVM programming engine.

The TypeScript sources (samba.ts, flash.ts, wordcopyapplet.ts, applet.ts,
D2xNvmFlash.ts, D5xNvmFlash.ts) are shallowly embedded below.  Stateful
driver code becomes a state monad `StM` over an explicit driver state `St`
that records the sequence of transport-visible events (`Ev`); values read
from the target come from an oracle `Env` (one value per read, in program
order, for byte/word reads; an address-indexed memory for block reads).
JavaScript numbers are embedded as `Nat` with explicit masks where the
code sends fixed-width values; JavaScript `/` is floating point, so where
the source divides, the embedded guard or value is the exact rational
comparison spelled out in a comment.  Loops become fuel-indexed recursion;
running out of fuel is the `Err.timeout` outcome.
-/

/-- A transport-visible event, as issued by the SamBA client layer. -/
inductive Ev where
  /-- `samba.readWord(addr)` returning `val` (command `w`). -/
  | readWord (addr val : Nat)
  /-- `samba.writeWord(addr, val)` (command `W`). -/
  | writeWord (addr val : Nat)
  /-- `samba.readByte(addr)` returning `val` (command `o`). -/
  | readByte (addr val : Nat)
  /-- `samba.writeByte(addr, val)` (command `O`). -/
  | writeByte (addr val : Nat)
  /-- `samba.go(addr)` (command `G`). -/
  | go (addr : Nat)
  /-- `samba.write(addr, data)` (command `S` plus payload bytes). -/
  | sWrite (addr : Nat) (data : List Nat)
  /-- `samba.read(addr, buf, size)` block read. -/
  | sRead (addr size : Nat)
  /-- The assignment `this._onBufferA = !this._onBufferA`, recorded with
  the new value so the position of the toggle in the sequence is visible. -/
  | toggle (newVal : Bool)
deriving DecidableEq

/-- Errors thrown by the flash drivers (plus fuel exhaustion). -/
inductive Err where
  | flashErase
  | flashCmd
  | flashPage
  | timeout
deriving DecidableEq

/-- `FlashOption<T>` from flash.ts: a value plus a dirty flag. -/
structure FlashOption (α : Type) where
  value : α
  dirty : Bool
deriving DecidableEq

/-- `FlashOption.set`: store the value and mark dirty (flash.ts).  The class
has no operation that clears the dirty flag. -/
def FlashOption.set {α : Type} (_o : FlashOption α) (v : α) : FlashOption α :=
  { value := v, dirty := true }

/-- The mutable state of a `Flash` driver instance, plus the event trace. -/
structure St where
  /-- Number of byte/word reads performed so far (oracle cursor). -/
  readCnt : Nat
  /-- Events issued so far, in order. -/
  trace : List Ev
  /-- `this._onBufferA` from flash.ts (initially true). -/
  onBufferA : Bool
  /-- `this._eraseAuto` (initially true in both drivers). -/
  eraseAuto : Bool
  /-- `this._prepared` from flash.ts (initially false). -/
  prepared : Bool
  /-- `this._installed` from applet.ts (initially false). -/
  installed : Bool
  /-- `this._bod` (initial value true, clean). -/
  bod : FlashOption Bool
  /-- `this._bor` (initial value true, clean). -/
  bor : FlashOption Bool
  /-- `this._security` (initial value true, clean). -/
  security : FlashOption Bool
  /-- `this._regions` (initially empty, clean). -/
  regions : FlashOption (List Bool)
deriving DecidableEq

/-- The driver state right after the `Flash` constructor ran. -/
def initSt : St :=
  { readCnt := 0, trace := [], onBufferA := true, eraseAuto := true
    prepared := false, installed := false
    bod := ⟨true, false⟩, bor := ⟨true, false⟩, security := ⟨true, false⟩
    regions := ⟨[], false⟩ }

/-- The target-side oracle: `reg k` is the value produced by the k-th
byte/word read of the session; `mem a` is the byte at address `a` returned
by block reads. -/
structure Env where
  reg : Nat → Nat
  mem : Nat → Nat

/-- A benign target: every register read returns 1 (ready, no error bits),
memory reads as zero. -/
def env1 : Env := { reg := fun _ => 1, mem := fun _ => 0 }

/-- The driver computation monad: state passing plus exceptions, with the
state (and hence the trace) preserved when an exception is thrown. -/
def StM (α : Type) : Type := St → Except Err α × St

instance : Monad StM where
  pure a := fun s => (Except.ok a, s)
  bind m f := fun s =>
    match m s with
    | (Except.ok a, s1) => f a s1
    | (Except.error e, s1) => (Except.error e, s1)

/-- Throw an error, keeping the state. -/
def throwE {α : Type} (e : Err) : StM α := fun s => (Except.error e, s)

/-- Read the driver state. -/
def getSt : StM St := fun s => (Except.ok s, s)

/-- Append one event to the trace. -/
def emit (e : Ev) : StM Unit :=
  fun s => (Except.ok (), { s with trace := s.trace ++ [e] })

/-- `samba.readByte(addr)`: one oracle byte, one `o` command. -/
def sambaReadByteM (env : Env) (addr : Nat) : StM Nat := fun s =>
  let v := env.reg s.readCnt % 256
  (Except.ok v,
    { s with readCnt := s.readCnt + 1, trace := s.trace ++ [Ev.readByte addr v] })

/-- `samba.readWord(addr)`: one oracle word, one `w` command. -/
def sambaReadWordM (env : Env) (addr : Nat) : StM Nat := fun s =>
  let v := env.reg s.readCnt % 4294967296
  (Except.ok v,
    { s with readCnt := s.readCnt + 1, trace := s.trace ++ [Ev.readWord addr v] })

/-- `samba.writeByte(addr, value)` (value sent as two hex digits). -/
def sambaWriteByteM (addr value : Nat) : StM Unit :=
  emit (Ev.writeByte addr (value % 256))

/-- `samba.writeWord(addr, value)` (value sent as eight hex digits). -/
def sambaWriteWordM (addr value : Nat) : StM Unit :=
  emit (Ev.writeWord addr (value % 4294967296))

/-- `samba.go(addr)`. -/
def sambaGoM (addr : Nat) : StM Unit := emit (Ev.go addr)

/-- `samba.write(addr, data, size)`: an `S` command with its payload. -/
def sambaWriteM (addr : Nat) (data : List Nat) : StM Unit :=
  emit (Ev.sWrite addr data)

/-- `samba.read(addr, buffer, size)` at driver level: a single block-read
event whose contents come from the address-indexed memory oracle.  The
chunking of this call into wire commands is modelled separately by
`sambaReadCmds`. -/
def sambaBlockReadM (env : Env) (addr size : Nat) : StM (Nat → Nat) := fun s =>
  (Except.ok (fun i => env.mem (addr + i) % 256),
    { s with trace := s.trace ++ [Ev.sRead addr size] })

/-! ### SamBA.read wire chunking (samba.ts `read`) -/

/-- A wire command issued by `SamBA.read`. -/
inductive RCmd where
  /-- `readByte(addr)`: the `o` command, one byte. -/
  | rByte (addr : Nat)
  /-- `R<addr>,<size>`: a block read of `size` bytes. -/
  | rBlock (addr size : Nat)
deriving DecidableEq

/-- Bytes transferred by one wire command. -/
def RCmd.size : RCmd → Nat
  | .rByte _ => 1
  | .rBlock _ n => n

/-- The `while (size > 0)` loop of `SamBA.read`: chunk to `readBufferSize`
when that limit is positive. -/
def readChunks (rbs : Nat) (addr size : Nat) : List RCmd :=
  if _h : size = 0 then []
  else
    let chunk := if 0 < rbs ∧ rbs < size then rbs else size
    RCmd.rBlock addr chunk :: readChunks rbs (addr + chunk) (size - chunk)
termination_by size
decreasing_by
  split <;> omega

/-- `SamBA.read` as the list of wire commands it issues.  The first branch
is the USB quirk: `readBufferSize == 0 && size > 32 && !(size & (size-1))`. -/
def sambaReadCmds (rbs addr size : Nat) : List RCmd :=
  if rbs = 0 ∧ 32 < size ∧ size &&& (size - 1) = 0 then
    RCmd.rByte addr :: readChunks rbs (addr + 1) (size - 1)
  else
    readChunks rbs addr size

/-! ### SamBA capability parsing (samba.ts `_connect`) -/

/-- The capability flags and read limit held by a `SamBA` instance. -/
structure SambaCaps where
  canChipErase : Bool
  canWriteBuffer : Bool
  canChecksumBuffer : Bool
  canProtect : Bool
  readBufferSize : Nat
deriving DecidableEq

/-- Flags as set by the constructor. -/
def initCaps : SambaCaps :=
  { canChipErase := false, canWriteBuffer := false, canChecksumBuffer := false
    canProtect := false, readBufferSize := 0 }

/-- The `switch (version[extIndex])` body of `_connect`. -/
def capSwitch (c : Char) (x : SambaCaps) : SambaCaps :=
  if c = 'X' then { x with canChipErase := true }
  else if c = 'Y' then { x with canWriteBuffer := true }
  else if c = 'Z' then { x with canChecksumBuffer := true }
  else if c = 'P' then { x with canProtect := true }
  else x

/-- The `while (extIndex < version.length && version[extIndex] != ']')`
loop of `_connect`, scanning from the character after the marker. -/
def capScan : List Char → SambaCaps → SambaCaps
  | [], x => x
  | c :: rest, x => if c = ']' then x else capScan rest (capSwitch c x)

/-- Does `needle` occur at the head of `hay`? -/
def leadsWith : List Char → List Char → Bool
  | [], _ => true
  | _ :: _, [] => false
  | a :: as, b :: bs => a == b && leadsWith as bs

/-- `String.prototype.indexOf`: index of the first occurrence. -/
def idxOfFrom (needle : List Char) : List Char → Nat → Option Nat
  | [], i => if leadsWith needle [] then some i else none
  | c :: t, i =>
      if leadsWith needle (c :: t) then some i else idxOfFrom needle t (i + 1)

/-- The marker `'[Arduino:'` searched for by `_connect` (9 characters). -/
def arduinoMarker : List Char := ['[', 'A', 'r', 'd', 'u', 'i', 'n', 'o', ':']

/-- `version.indexOf('[Arduino:')`, as an `Option`. -/
def markerIdx (v : List Char) : Option Nat := idxOfFrom arduinoMarker v 0

/-- The capability state `_connect` leaves behind for a given version
string: if the marker is found, scan from `extIndex + 9` and then set
`readBufferSize = 63`; otherwise everything stays at its initial value. -/
def connectCaps (v : List Char) : SambaCaps :=
  match markerIdx v with
  | none => initCaps
  | some i => { capScan (v.drop (i + 9)) initCaps with readBufferSize := 63 }

/-- Membership of a character in a list, as the claim reads it. -/
def hasChar : List Char → Char → Bool
  | [], _ => false
  | c :: r, a => c == a || hasChar r a

/-- The characters "inside the bracket": between the marker and the first
`']'` (or the end of the string). -/
def bracketSeg (v : List Char) (i : Nat) : List Char :=
  (v.drop (i + 9)).takeWhile (fun c => c ≠ ']')

/-- The capability state as the specification describes it: each of X, Y,
Z, P inside the bracket enables its capability, the bracket sets
`readBufferSize` to 63, and an absent marker leaves everything initial. -/
def claimCaps (v : List Char) : SambaCaps :=
  match markerIdx v with
  | none => initCaps
  | some i =>
      { canChipErase := hasChar (bracketSeg v i) 'X'
        canWriteBuffer := hasChar (bracketSeg v i) 'Y'
        canChecksumBuffer := hasChar (bracketSeg v i) 'Z'
        canProtect := hasChar (bracketSeg v i) 'P'
        readBufferSize := 63 }

/-! ### SamBA.decodeResponse (samba.ts) -/

/-- `decodeResponse` exactly as written: the `if` uses `=` (assignment),
so for buffers longer than two bytes it stores 0x0c and 0x0a into the last
two slots — both truthy — and then always drops the last two bytes. -/
def decodeResponse (buffer : List Nat) : List Nat :=
  if 2 < buffer.length then
    let b1 := buffer.set (buffer.length - 1) 0x0c
    let b2 := b1.set (b1.length - 2) 0x0a
    b2.take (b2.length - 2)
  else buffer

/-- `decodeResponse` as specified: strip the trailing two bytes iff they
equal 0x0a, 0x0c, otherwise return the buffer unmodified. -/
def decodeResponseSpec (buffer : List Nat) : List Nat :=
  if 2 < buffer.length ∧
      buffer.getD (buffer.length - 2) 0 = 0x0a ∧
      buffer.getD (buffer.length - 1) 0 = 0x0c then
    buffer.take (buffer.length - 2)
  else buffer

/-! ### Word-copy applet (wordcopyapplet.ts over applet.ts) -/

/-- The 52-byte Thumb code blob of the word-copy applet. -/
def appletCode : List Nat :=
  [0x09, 0x48, 0x0a, 0x49, 0x0a, 0x4a, 0x02, 0xe0, 0x08, 0xc9, 0x08, 0xc0,
   0x01, 0x3a, 0x00, 0x2a, 0xfa, 0xd1, 0x04, 0x48, 0x00, 0x28, 0x01, 0xd1,
   0x01, 0x48, 0x85, 0x46, 0x70, 0x47, 0xc0, 0x46, 0x00, 0x00, 0x00, 0x00,
   0x00, 0x00, 0x00, 0x00, 0x00, 0x00, 0x00, 0x00, 0x00, 0x00, 0x00, 0x00,
   0x00, 0x00, 0x00, 0x00]

/-- Mark the applet installed (`this._installed = true`). -/
def setInstalled : StM Unit := fun s => (Except.ok (), { s with installed := true })

/-- Mark the applet prepared (`this._prepared = true`). -/
def setPrepared : StM Unit := fun s => (Except.ok (), { s with prepared := true })

/-- `this._onBufferA = !this._onBufferA`, with a trace marker. -/
def toggleBuf : StM Unit := fun s =>
  (Except.ok (),
    { s with onBufferA := !s.onBufferA, trace := s.trace ++ [Ev.toggle (!s.onBufferA)] })

/-- `Applet.checkInstall`: upload the code blob once per session. -/
def checkInstall (user : Nat) : StM Unit := do
  let s ← getSt
  if s.installed then pure ()
  else
    sambaWriteM user appletCode
    setInstalled

/-- `WordCopyApplet.setDstAddr` (parameter cell at offset 0x28). -/
def wcSetDstAddr (user v : Nat) : StM Unit := do
  checkInstall user
  sambaWriteWordM (user + 0x28) v

/-- `WordCopyApplet.setSrcAddr` (parameter cell at offset 0x2c). -/
def wcSetSrcAddr (user v : Nat) : StM Unit := do
  checkInstall user
  sambaWriteWordM (user + 0x2c) v

/-- `WordCopyApplet.setWords` (parameter cell at offset 0x30). -/
def wcSetWords (user v : Nat) : StM Unit := do
  checkInstall user
  sambaWriteWordM (user + 0x30) v

/-- `Applet.setStack` (stack cell at offset 0x20). -/
def wcSetStack (user v : Nat) : StM Unit := do
  checkInstall user
  sambaWriteWordM (user + 0x20) v

/-- `Applet.runv`: write start|1 into the reset-vector cell (offset 0x24),
then `go` to the stack cell (offset 0x20). -/
def wcRunv (user : Nat) : StM Unit := do
  checkInstall user
  sambaWriteWordM (user + 0x24) (user + 0x0 + 1)
  sambaGoM (user + 0x20)

/-! ### Flash base class (flash.ts) -/

/-- The per-device geometry handed to a driver constructor. -/
structure Geo where
  /-- Flash base address (both drivers pass 0). -/
  addr : Nat
  pages : Nat
  size : Nat
  lockRegions : Nat
  user : Nat
  stack : Nat
deriving DecidableEq

/-- SRAM page buffer A: 4-byte aligned, right after the 52-byte applet. -/
def pageBufferA (g : Geo) : Nat := (g.user + 52 + 3) / 4 * 4

/-- SRAM page buffer B, directly after buffer A. -/
def pageBufferB (g : Geo) : Nat := pageBufferA g + g.size

/-- `this._onBufferA ? this._pageBufferA : this._pageBufferB`. -/
def activeBuffer (g : Geo) (onA : Bool) : Nat :=
  if onA then pageBufferA g else pageBufferB g

/-- `Flash.loadBuffer(data, offset, bufferSize)`: upload a slice of `data`
into the active SRAM page buffer via `S`. -/
def loadBuffer (g : Geo) (data : Nat → Nat) (offset size : Nat) : StM Unit := do
  let s ← getSt
  sambaWriteM (activeBuffer g s.onBufferA)
    ((List.range size).map fun j => data (offset + j) % 256)

/-- `Flash.prepareApplet`: on first use set the word count and the stack. -/
def prepareApplet (g : Geo) : StM Unit := do
  let s ← getSt
  if s.prepared then pure ()
  else
    wcSetWords g.user (g.size / 4)
    wcSetStack g.user g.stack
    setPrepared

/-- `Flash.setBod` (`canBod()` is true in both drivers). -/
def setBodSt (b : Bool) (s : St) : St := { s with bod := s.bod.set b }

/-- `Flash.setBor` (`canBor()` is true in both drivers). -/
def setBorSt (b : Bool) (s : St) : St := { s with bor := s.bor.set b }

/-- `Flash.setSecurity`. -/
def setSecuritySt (s : St) : St := { s with security := s.security.set true }

/-- `Flash.setLockRegions`: a vector longer than the region count raises
`FlashRegionError` (here: leaves the state unchanged), otherwise sets. -/
def setLockRegionsSt (g : Geo) (rs : List Bool) (s : St) : St :=
  if g.lockRegions < rs.length then s else { s with regions := s.regions.set rs }

/-- The `equal` loop of `writeOptions`: element-wise comparison; a missing
element on the right (JS `undefined`) compares unequal. -/
def regsEqual : List Bool → List Bool → Bool
  | [], _ => true
  | _ :: _, [] => false
  | a :: as, b :: bs => a == b && regsEqual as bs

/-- Pointwise update of a byte-array-as-function. -/
def updFn (up : Nat → Nat) (i : Nat) (f : Nat → Nat) : Nat → Nat :=
  fun j => if j = i then f (up i) else up j

/-- The lock-bit rewrite loop shared by both `writeOptions` bodies.  The JS
index expression `lockOffset + region / 8` uses floating division, so the
index is fractional unless `region % 8 = 0`; assignments at fractional
typed-array indices are ignored, hence the guard. -/
def applyLockBits (lockOff : Nat) : Nat → List Bool → (Nat → Nat) → (Nat → Nat)
  | _, [], up => up
  | region, r :: rest, up =>
      let up1 :=
        if region % 8 = 0 then
          if r then
            updFn up (lockOff + region / 8) (fun x => x &&& (0xff ^^^ (1 <<< (region % 8))))
          else
            updFn up (lockOff + region / 8) (fun x => x ||| (1 <<< (region % 8)))
        else up
      applyLockBits lockOff (region + 1) rest up1

/-- The `getLockRegions` loop shared by both drivers: read one lock byte per
eight regions, report a region locked when its bit is clear. -/
def lockRegionsLoop (env : Env) : Nat → Nat → Nat → Nat → StM (List Bool)
  | _, 0, _, _ => pure []
  | region, c + 1, addr, lockBits => do
      if region % 8 = 0 then
        let b ← sambaReadByteM env addr
        let rest ← lockRegionsLoop env (region + 1) c (addr + 1) b
        pure ((b &&& (1 <<< (region % 8)) = 0) :: rest)
      else
        let rest ← lockRegionsLoop env (region + 1) c addr lockBits
        pure ((lockBits &&& (1 <<< (region % 8)) = 0) :: rest)

/-! ### D2x NVM driver (D2xNvmFlash.ts)

Register base 0x41004000; CTRLA=0x00, CTRLB=0x04, INTFLAG=0x14,
STATUS=0x18, ADDR=0x1c.  All registers are accessed as 32-bit words. -/

/-- `readReg`: a 32-bit read of a D2x NVM register. -/
def d2xReadReg (env : Env) (reg : Nat) : StM Nat :=
  sambaReadWordM env (0x41004000 + reg)

/-- `writeReg`: a 32-bit write of a D2x NVM register. -/
def d2xWriteReg (reg value : Nat) : StM Unit :=
  sambaWriteWordM (0x41004000 + reg) value

/-- `waitReady`: poll INTFLAG until bit 0 is set (fuel-indexed; spelled
with the primitive recursor so that concrete runs reduce in the kernel). -/
def d2xWaitReady (env : Env) : Nat → StM Unit :=
  Nat.rec (throwE Err.timeout)
    (fun _fuel ih => do
      let v ← d2xReadReg env 0x14
      if v &&& 0x1 = 0 then ih else pure ())

/-- `command(cmd)`: wait ready, write `0xA500 | cmd` to CTRLA, wait ready,
then check INTFLAG bit 1 (clear it and raise on error). -/
def d2xCommand (env : Env) (fuel cmd : Nat) : StM Unit := do
  d2xWaitReady env fuel
  d2xWriteReg 0x00 (0xa500 ||| cmd)
  d2xWaitReady env fuel
  let v ← d2xReadReg env 0x14
  if v &&& 0x2 ≠ 0 then
    d2xWriteReg 0x14 0x2
    throwE Err.flashCmd
  else pure ()

/-- The erase loop of `D2xNvmFlash.erase`.  The JS loop guard is
`eraseNum < (offset + size + eraseSize - 1) / eraseSize` with floating
division; for an integer counter and positive `eraseSize` that comparison
is exactly `eraseNum * eraseSize < offset + size + eraseSize - 1`, which is
how the guard is embedded (`bound` is the dividend). -/
def d2xEraseLoop (env : Env) (fuel es bound : Nat) (n lf : Nat) : StM Unit :=
  Nat.rec (motive := fun _ => Nat → StM Unit)
    (fun _ => throwE Err.timeout)
    (fun _lf ih n => do
      if n * es < bound then
        d2xWaitReady env fuel
        let statusReg ← d2xReadReg env 0x18
        d2xWriteReg 0x18 (statusReg ||| 0xffeb)
        d2xWriteReg 0x1c (n * es / 2)
        d2xCommand env fuel 0x02
        ih (n + 1)
      else pure ())
    lf n

/-- `D2xNvmFlash.erase(offset, size)`: granularity 4 pages ("row"). -/
def d2xErase (g : Geo) (env : Env) (fuel lf offset size : Nat) : StM Unit :=
  let eraseSize := g.size * 4
  if offset % eraseSize ≠ 0 then throwE Err.flashErase
  else if g.size * g.pages < offset + size then throwE Err.flashErase
  else d2xEraseLoop env fuel eraseSize (offset + size + eraseSize - 1) (offset / eraseSize) lf

/-- `D2xNvmFlash.writePage(page)`. -/
def d2xWritePage (g : Geo) (env : Env) (fuel lf page : Nat) : StM Unit := do
  if g.pages ≤ page then throwE Err.flashPage
  else
    let v ← d2xReadReg env 0x04
    d2xWriteReg 0x04 (v ||| (0x1 <<< 18) ||| (0x1 <<< 7))
    let s1 ← getSt
    (if s1.eraseAuto ∧ page % 4 = 0 then
      d2xErase g env fuel lf (page * g.size) (4 * g.size)
    else (pure () : StM Unit))
    d2xCommand env fuel 0x44
    let addr := g.addr + page * g.size
    prepareApplet g
    wcSetDstAddr g.user addr
    let s2 ← getSt
    wcSetSrcAddr g.user (activeBuffer g s2.onBufferA)
    toggleBuf
    d2xWaitReady env fuel
    wcRunv g.user
    d2xWriteReg 0x1c (addr / 2)
    d2xCommand env fuel 0x04

/-- `D2xNvmFlash.getLockRegions` (user row lock bytes at 0x804006). -/
def d2xGetLockRegions (g : Geo) (env : Env) : StM (List Bool) :=
  lockRegionsLoop env 0 g.lockRegions (0x804000 + 0x6) 0

/-- `D2xNvmFlash.getSecurity`: STATUS bit 8. -/
def d2xGetSecurity (env : Env) : StM Bool := do
  let reg ← d2xReadReg env 0x18
  pure (reg &&& 0x100 ≠ 0)

/-- `D2xNvmFlash.getBod`: user row byte 1, mask 0x6. -/
def d2xGetBod (env : Env) : StM Bool := do
  let b ← sambaReadByteM env (0x804000 + 0x1)
  pure (b &&& 0x6 ≠ 0)

/-- `D2xNvmFlash.getBor`: user row byte 1, mask 0x7. -/
def d2xGetBor (env : Env) : StM Bool := do
  let b ← sambaReadByteM env (0x804000 + 0x1)
  pure (b &&& 0x7 ≠ 0)

/-- `D2xNvmFlash.readUserRow`: block-read the 4-page user row. -/
def d2xReadUserRow (g : Geo) (env : Env) : StM (Nat → Nat) :=
  sambaBlockReadM env 0x804000 (g.size * 4)

/-- The user-row rewrite loop of `D2xNvmFlash.writeOptions`: one full page
per iteration, stepping by the page size over the 4-page row. -/
def d2xUserRowLoop (g : Geo) (env : Env) (fuel : Nat) (up : Nat → Nat)
    (offset lf : Nat) : StM Unit :=
  Nat.rec (motive := fun _ => Nat → StM Unit)
    (fun _ => throwE Err.timeout)
    (fun _lf ih offset => do
      if offset < g.size * 4 then
        loadBuffer g up offset g.size
        d2xCommand env fuel 0x44
        prepareApplet g
        wcSetDstAddr g.user (0x804000 + offset)
        let s ← getSt
        wcSetSrcAddr g.user (activeBuffer g s.onBufferA)
        toggleBuf
        d2xWaitReady env fuel
        wcRunv g.user
        d2xWriteReg 0x1c ((0x804000 + offset) / 2)
        d2xCommand env fuel 0x06
        ih (offset + g.size)
      else pure ())
    lf offset

/-- The BOR section of `D2xNvmFlash.writeOptions`: when the option is
dirty and differs from the device, re-read the user row and set or clear
the reset mask at byte 1; otherwise leave the buffer as it was. -/
def d2xBorStep (g : Geo) (env : Env) (bor : FlashOption Bool) (ur : Nat → Nat) :
    StM (Nat → Nat) :=
  if bor.dirty then do
    let cur ← d2xGetBor env
    if bor.value ≠ cur then do
      let up ← d2xReadUserRow g env
      if bor.value then pure (updFn up 0x1 (fun x => x ||| 0x7))
      else pure (updFn up 0x1 (fun x => x &&& (0xff ^^^ 0x7)))
    else pure ur
  else pure ur

/-- The BOD section of `D2xNvmFlash.writeOptions` (enable mask 0x6 at
byte 1). -/
def d2xBodStep (g : Geo) (env : Env) (bod : FlashOption Bool) (ur : Nat → Nat) :
    StM (Nat → Nat) :=
  if bod.dirty then do
    let cur ← d2xGetBod env
    if bod.value ≠ cur then do
      let up ← d2xReadUserRow g env
      if bod.value then pure (updFn up 0x1 (fun x => x ||| 0x6))
      else pure (updFn up 0x1 (fun x => x &&& (0xff ^^^ 0x6)))
    else pure ur
  else pure ur

/-- The lock-region section of `D2xNvmFlash.writeOptions`. -/
def d2xRegionsStep (g : Geo) (env : Env) (regions : FlashOption (List Bool))
    (ur : Nat → Nat) : StM (Nat → Nat) :=
  if regions.dirty then do
    let current ← d2xGetLockRegions g env
    if regsEqual regions.value current = false then do
      let up ← d2xReadUserRow g env
      pure (applyLockBits 0x6 0 regions.value up)
    else pure ur
  else pure ur

/-- `D2xNvmFlash.writeOptions`. -/
def d2xWriteOptions (g : Geo) (env : Env) (fuel lf : Nat) : StM Unit := do
  let s0 ← getSt
  let ur1 ← d2xBorStep g env s0.bor (fun _ => 0)
  let ur2 ← d2xBodStep g env s0.bod ur1
  let ur3 ← d2xRegionsStep g env s0.regions ur2
  -- `if (userRow)` in the source: a Uint8Array is always truthy.
  let v ← d2xReadReg env 0x04
  d2xWriteReg 0x04 (v ||| (0x1 <<< 18) ||| (0x1 <<< 7))
  d2xWriteReg 0x1c (0x804000 / 2)
  d2xCommand env fuel 0x05
  d2xUserRowLoop g env fuel ur3 0 lf
  if s0.security.dirty ∧ s0.security.value = true then do
    let cur ← d2xGetSecurity env
    if s0.security.value ≠ cur then d2xCommand env fuel 0x45
    else pure ()
  else pure ()

/-! ### D5x NVM driver (the D5xNvmFlash source)

Register base 0x41004000; CTRLA=0x00, CTRLB=0x04, INTFLAG=0x10,
STATUS=0x12, ADDR=0x14.  CTRLA/CTRLB/INTFLAG/STATUS are meant to be
16-bit; ADDR is 32-bit. -/

/-- `readRegU16`: two byte reads, low at `reg`, high at `reg + 1`. -/
def d5xReadRegU16 (env : Env) (reg : Nat) : StM Nat := do
  let lo ← sambaReadByteM env (0x41004000 + reg)
  let hi ← sambaReadByteM env (0x41004000 + reg + 1)
  pure (lo ||| (hi <<< 8))

/-- `writeRegU16` exactly as written: both byte writes go to
`NVM_REG_BASE + reg` — the second one (the high byte) is issued at the
same address, not at `reg + 1`. -/
def d5xWriteRegU16 (reg value : Nat) : StM Unit := do
  sambaWriteByteM (0x41004000 + reg) (value &&& 0xff)
  sambaWriteByteM (0x41004000 + reg) ((value >>> 8) &&& 0xff)

/-- `readRegU32`. -/
def d5xReadRegU32 (env : Env) (reg : Nat) : StM Nat :=
  sambaReadWordM env (0x41004000 + reg)

/-- `writeRegU32`. -/
def d5xWriteRegU32 (reg value : Nat) : StM Unit :=
  sambaWriteWordM (0x41004000 + reg) value

/-- `waitReady`: poll STATUS (16-bit) until bit 0 is set. -/
def d5xWaitReady (env : Env) : Nat → StM Unit :=
  Nat.rec (throwE Err.timeout)
    (fun _fuel ih => do
      let v ← d5xReadRegU16 env 0x12
      if v &&& 0x1 = 0 then ih else pure ())

/-- `command(cmd)`: wait ready, write `0xA500 | cmd` to CTRLB — via
`writeRegU32`, a 32-bit access, as the source does — wait ready, then
check INTFLAG (16-bit) against 0xce. -/
def d5xCommand (env : Env) (fuel cmd : Nat) : StM Unit := do
  d5xWaitReady env fuel
  d5xWriteRegU32 0x04 (0xa500 ||| cmd)
  d5xWaitReady env fuel
  let v ← d5xReadRegU16 env 0x10
  if v &&& 0xce ≠ 0 then
    d5xWriteRegU16 0x10 0xce
    throwE Err.flashCmd
  else pure ()

/-- The erase loop of `D5xNvmFlash.erase`: same floating-point loop guard
as the D2x one (embedded as `n * es < bound`), `ADDR` takes the raw byte
address of the block, command EB. -/
def d5xEraseLoop (env : Env) (fuel es bound : Nat) (n lf : Nat) : StM Unit :=
  Nat.rec (motive := fun _ => Nat → StM Unit)
    (fun _ => throwE Err.timeout)
    (fun _lf ih n => do
      if n * es < bound then
        d5xWriteRegU32 0x14 (n * es)
        d5xCommand env fuel 0x01
        ih (n + 1)
      else pure ())
    lf n

/-- `D5xNvmFlash.erase(offset, size)`: granularity 16 pages ("block"). -/
def d5xErase (g : Geo) (env : Env) (fuel lf offset size : Nat) : StM Unit :=
  let eraseSize := g.size * 16
  if offset % eraseSize ≠ 0 then throwE Err.flashErase
  else if g.size * g.pages < offset + size then throwE Err.flashErase
  else d5xEraseLoop env fuel eraseSize (offset + size + eraseSize - 1) (offset / eraseSize) lf

/-- `D5xNvmFlash.writePage(page)`.  Note the final `ADDR` write: the source
has `writeRegU32(NVM_REG_ADDR, addr / 2)` — the D2x half-word encoding —
even though every other `ADDR` write in this driver uses the byte address. -/
def d5xWritePage (g : Geo) (env : Env) (fuel lf page : Nat) : StM Unit := do
  if g.pages ≤ page then throwE Err.flashPage
  else
    let v ← d5xReadRegU16 env 0x00
    d5xWriteRegU16 0x00 ((v ||| (0x3 <<< 14)) &&& 0xffcf)
    let s1 ← getSt
    (if s1.eraseAuto ∧ page % 16 = 0 then
      d5xErase g env fuel lf (page * g.size) (16 * g.size)
    else (pure () : StM Unit))
    d5xCommand env fuel 0x15
    let addr := g.addr + page * g.size
    prepareApplet g
    wcSetDstAddr g.user addr
    let s2 ← getSt
    wcSetSrcAddr g.user (activeBuffer g s2.onBufferA)
    wcSetWords g.user (g.size / 4)
    toggleBuf
    d5xWaitReady env fuel
    wcRunv g.user
    d5xWriteRegU32 0x14 (addr / 2)
    d5xCommand env fuel 0x03

/-- `D5xNvmFlash.getLockRegions` (user page lock bytes at 0x804008). -/
def d5xGetLockRegions (g : Geo) (env : Env) : StM (List Bool) :=
  lockRegionsLoop env 0 g.lockRegions (0x804000 + 0x8) 0

/-- `D5xNvmFlash.getSecurity`: not readable, always false. -/
def d5xGetSecurity : StM Bool := pure false

/-- `D5xNvmFlash.getBod`: user page byte 0 holds a BOD33 *disable* bit
(mask 0x1), so BOD is on when the bit is clear. -/
def d5xGetBod (env : Env) : StM Bool := do
  let b ← sambaReadByteM env (0x804000 + 0x0)
  pure (b &&& 0x1 = 0)

/-- `D5xNvmFlash.getBor`: user page byte 1, mask 0x2. -/
def d5xGetBor (env : Env) : StM Bool := do
  let b ← sambaReadByteM env (0x804000 + 0x1)
  pure (b &&& 0x2 ≠ 0)

/-- `D5xNvmFlash.readUserPage`: block-read the one-page user page
(`NVM_UP_SIZE` is the page size). -/
def d5xReadUserPage (g : Geo) (env : Env) : StM (Nat → Nat) :=
  sambaBlockReadM env 0x804000 g.size

/-- The user-page rewrite loop of `D5xNvmFlash.writeOptions`, exactly as
written: each iteration loads a 16-byte chunk, clears the page buffer,
copies 4 words with the applet and issues WQW — but the loop variable
steps by `this._size` (the page size), not by 16, while the loop bound
`NVM_UP_SIZE` is also the page size, so the loop body runs once. -/
def d5xUserPageLoop (g : Geo) (env : Env) (fuel : Nat) (up : Nat → Nat)
    (offset lf : Nat) : StM Unit :=
  Nat.rec (motive := fun _ => Nat → StM Unit)
    (fun _ => throwE Err.timeout)
    (fun _lf ih offset => do
      if offset < g.size then
        loadBuffer g up offset 16
        d5xCommand env fuel 0x15
        prepareApplet g
        wcSetDstAddr g.user (0x804000 + offset)
        let s ← getSt
        wcSetSrcAddr g.user (activeBuffer g s.onBufferA)
        wcSetWords g.user 4
        toggleBuf
        d5xWaitReady env fuel
        wcRunv g.user
        d5xWriteRegU32 0x14 (0x804000 + offset)
        d5xCommand env fuel 0x04
        ih (offset + g.size)
      else pure ())
    lf offset

/-- The BOR section of `D5xNvmFlash.writeOptions` (reset mask 0x2 at
byte 1). -/
def d5xBorStep (g : Geo) (env : Env) (bor : FlashOption Bool) (up0 : Nat → Nat) :
    StM (Nat → Nat) :=
  if bor.dirty then do
    let cur ← d5xGetBor env
    if bor.value ≠ cur then do
      let up ← d5xReadUserPage g env
      if bor.value then pure (updFn up 0x1 (fun x => x ||| 0x2))
      else pure (updFn up 0x1 (fun x => x &&& (0xff ^^^ 0x2)))
    else pure up0
  else pure up0

/-- The BOD section of `D5xNvmFlash.writeOptions`: byte 0 holds a
*disable* bit (mask 0x1), so enabling clears it and disabling sets it. -/
def d5xBodStep (g : Geo) (env : Env) (bod : FlashOption Bool) (up0 : Nat → Nat) :
    StM (Nat → Nat) :=
  if bod.dirty then do
    let cur ← d5xGetBod env
    if bod.value ≠ cur then do
      let up ← d5xReadUserPage g env
      if bod.value then pure (updFn up 0x0 (fun x => x &&& (0xff ^^^ 0x1)))
      else pure (updFn up 0x0 (fun x => x ||| 0x1))
    else pure up0
  else pure up0

/-- The lock-region section of `D5xNvmFlash.writeOptions`. -/
def d5xRegionsStep (g : Geo) (env : Env) (regions : FlashOption (List Bool))
    (up0 : Nat → Nat) : StM (Nat → Nat) :=
  if regions.dirty then do
    let current ← d5xGetLockRegions g env
    if regsEqual regions.value current = false then do
      let up ← d5xReadUserPage g env
      pure (applyLockBits 0x8 0 regions.value up)
    else pure up0
  else pure up0

/-- `D5xNvmFlash.writeOptions`. -/
def d5xWriteOptions (g : Geo) (env : Env) (fuel lf : Nat) : StM Unit := do
  let s0 ← getSt
  let up1 ← d5xBorStep g env s0.bor (fun _ => 0)
  let up2 ← d5xBodStep g env s0.bod up1
  let up3 ← d5xRegionsStep g env s0.regions up2
  -- `if (userPage)` in the source: a Uint8Array is always truthy.
  let v ← d5xReadRegU16 env 0x00
  d5xWriteRegU16 0x00 ((v ||| (0x3 <<< 14)) &&& 0xffcf)
  d5xWriteRegU32 0x14 0x804000
  d5xCommand env fuel 0x00
  d5xUserPageLoop g env fuel up3 0 lf
  if s0.security.dirty ∧ s0.security.value = true then do
    let cur ← d5xGetSecurity
    if s0.security.value ≠ cur then d5xCommand env fuel 0x16
    else pure ()
  else pure ()

/-! ### Driver call sequences and trace observations -/

/-- `N` consecutive `writePage` calls on the D2x driver. -/
def d2xWritePages (g : Geo) (env : Env) (fuel lf : Nat) (ps : List Nat) : StM Unit :=
  List.rec (pure ())
    (fun p _ ih => do
      d2xWritePage g env fuel lf p
      ih)
    ps

/-- `N` consecutive `writePage` calls on the D5x driver. -/
def d5xWritePages (g : Geo) (env : Env) (fuel lf : Nat) (ps : List Nat) : StM Unit :=
  List.rec (pure ())
    (fun p _ ih => do
      d5xWritePage g env fuel lf p
      ih)
    ps

/-- Values written to the D2x `ADDR` register (0x4100401c), in order. -/
def d2xAddrWrites (t : List Ev) : List Nat :=
  t.filterMap fun e =>
    match e with
    | Ev.writeWord a v => if a = 0x4100401c then some v else none
    | _ => none

/-- Values written to the D5x `ADDR` register (0x41004014), in order. -/
def d5xAddrWrites (t : List Ev) : List Nat :=
  t.filterMap fun e =>
    match e with
    | Ev.writeWord a v => if a = 0x41004014 then some v else none
    | _ => none

/-- Word values dispatched to the D5x `CTRLB` register (0x41004004), in
order: the commands issued by the driver. -/
def d5xDispatches (t : List Ev) : List Nat :=
  t.filterMap fun e =>
    match e with
    | Ev.writeWord a v => if a = 0x41004004 then some v else none
    | _ => none

/-- Word values dispatched to the D2x `CTRLA` register (0x41004000). -/
def d2xDispatches (t : List Ev) : List Nat :=
  t.filterMap fun e =>
    match e with
    | Ev.writeWord a v => if a = 0x41004000 then some v else none
    | _ => none

/-- Is the event the buffer toggle? -/
def isToggle : Ev → Bool
  | Ev.toggle _ => true
  | _ => false

/-- Is the event a `go` (the applet launch)? -/
def isGo : Ev → Bool
  | Ev.go _ => true
  | _ => false

/-- Number of buffer toggles in a trace. -/
def countToggle (t : List Ev) : Nat := (t.filter isToggle).length

/-- Payloads uploaded to a given SRAM address via `S`, in order. -/
def sWritesAt (addr : Nat) (t : List Ev) : List (List Nat) :=
  t.filterMap fun e =>
    match e with
    | Ev.sWrite a d => if a = addr then some d else none
    | _ => none

/-- A SAMD21J18A-like D2x geometry (4096 pages of 64 bytes). -/
def geoD2x : Geo :=
  { addr := 0, pages := 4096, size := 64, lockRegions := 16
    user := 0x20004000, stack := 0x20008000 }

/-- A SAMD51/SAME51-like D5x geometry (1024 pages of 512 bytes). -/
def geoD5x : Geo :=
  { addr := 0, pages := 1024, size := 512, lockRegions := 32
    user := 0x20004000, stack := 0x20008000 }

/-! ### Proof-level predicates over computations -/

/-- An event that is neither the buffer toggle nor an applet launch. -/
def plainEv (e : Ev) : Prop := isToggle e = false ∧ isGo e = false

/-- A computation that only appends plain events and leaves `onBufferA`
unchanged (whatever its outcome). -/
def Plain {α : Type} (m : StM α) : Prop :=
  ∀ s r s1, m s = (r, s1) →
    ∃ t, s1.trace = s.trace ++ t ∧ (∀ e ∈ t, plainEv e) ∧ s1.onBufferA = s.onBufferA

/-- The four option cells of a driver state. -/
def optsOf (s : St) :
    FlashOption Bool × FlashOption Bool × FlashOption Bool × FlashOption (List Bool) :=
  (s.bod, s.bor, s.security, s.regions)

/-- A computation that never touches the option cells. -/
def OptsPres {α : Type} (m : StM α) : Prop :=
  ∀ s r s1, m s = (r, s1) → optsOf s1 = optsOf s

/-- A ready poll of the D2x driver: a 32-bit read of INTFLAG. -/
def d2xReadyRead (e : Ev) : Prop := ∃ w, e = Ev.readWord 0x41004014 w

/-- A ready poll of the D5x driver: a byte read of STATUS (low or high). -/
def d5xReadyRead (e : Ev) : Prop :=
  ∃ w, e = Ev.readByte 0x41004012 w ∨ e = Ev.readByte 0x41004013 w

/-! ### Caller-facing operations for the option bookkeeping -/

/-- One caller-facing operation touching or flushing the flash options. -/
inductive FlashOp where
  | opSetBod (b : Bool)
  | opSetBor (b : Bool)
  | opSetSecurity
  | opSetLockRegions (rs : List Bool)
  | opWriteOptionsD2x
  | opWriteOptionsD5x
  | opWritePageD2x (p : Nat)
  | opWritePageD5x (p : Nat)

/-- Run one operation, keeping the resulting driver state (on an error the
source surfaces the exception but the instance state stands as it was left). -/
def applyOp (g : Geo) (env : Env) (fuel lf : Nat) : FlashOp → St → St
  | .opSetBod b, s => setBodSt b s
  | .opSetBor b, s => setBorSt b s
  | .opSetSecurity, s => setSecuritySt s
  | .opSetLockRegions rs, s => setLockRegionsSt g rs s
  | .opWriteOptionsD2x, s => (d2xWriteOptions g env fuel lf s).2
  | .opWriteOptionsD5x, s => (d5xWriteOptions g env fuel lf s).2
  | .opWritePageD2x p, s => (d2xWritePage g env fuel lf p s).2
  | .opWritePageD5x p, s => (d5xWritePage g env fuel lf p s).2

/-- Run a session: a sequence of operations, in order. -/
def applyOps (g : Geo) (env : Env) (fuel lf : Nat) : List FlashOp → St → St
  | [], s => s
  | op :: ops, s => applyOps g env fuel lf ops (applyOp g env fuel lf op s)

/-- The target oracle for the option-flush scenario: the first read (the
`getBod` byte of the user page) returns 0 (BOD enabled), every later
register read returns 1 (ready, no error bits); user-page memory is zero. -/
def env7 : Env := { reg := fun k => if k = 0 then 0 else 1, mem := fun _ => 0 }

/-- The driver state after the caller ran `setBod(false)` on a fresh
driver. -/
def st7 : St := setBodSt false initSt

/-- The fold of `capSwitch` over a whole character list (proof helper for
relating the scan loop to per-character membership). -/
def applyAll : List Char → SambaCaps → SambaCaps
  | [], x => x
  | c :: r, x => applyAll r (capSwitch c x)

/-! ## Theorems -/

/-- Unfolding of `bind` on the driver monad. -/
theorem StM.run_bind {α β : Type} (m : StM α) (f : α → StM β) (s : St) :
    (m >>= f) s =
      match m s with
      | (Except.ok a, s1) => f a s1
      | (Except.error e, s1) => (Except.error e, s1) := rfl

/-- Unfolding of `pure` on the driver monad. -/
theorem StM.run_pure {α : Type} (a : α) (s : St) :
    (pure a : StM α) s = (Except.ok a, s) := rfl

/-- A successful `bind` splits into a successful prefix and suffix. -/
theorem StM.bind_eq_ok {α β : Type} {m : StM α} {f : α → StM β} {s : St}
    {b : β} {s2 : St} (h : (m >>= f) s = (Except.ok b, s2)) :
    ∃ a s1, m s = (Except.ok a, s1) ∧ f a s1 = (Except.ok b, s2) := by
  rw [StM.run_bind] at h
  rcases hm : m s with ⟨r1, s1⟩
  rw [hm] at h
  cases r1 with
  | ok a => exact ⟨a, s1, rfl, h⟩
  | error e => simp at h


/-- C1: on the D2x driver `writePage(3)` (64-byte pages) writes the
half-word address 96 = (3·64)/2 into `ADDR`, as the claim states; but on
the D5x driver `writePage(1)` (512-byte pages) also writes the half-word
address 256 = 512/2 into `ADDR` — not the byte address 512 the claim
requires — because the source line is `writeRegU32(NVM_REG_ADDR, addr / 2)`. -/
theorem c1_writePage_addr_encoding :
    d2xAddrWrites ((d2xWritePage geoD2x env1 2 4 3 initSt).2).trace = [96] ∧
    (d2xWritePage geoD2x env1 2 4 3 initSt).1 = Except.ok () ∧
    d5xAddrWrites ((d5xWritePage geoD5x env1 2 4 1 initSt).2).trace = [256] ∧
    (d5xWritePage geoD5x env1 2 4 1 initSt).1 = Except.ok () ∧
    [256] ≠ [(512 : Nat)] := by
  exact ⟨rfl, rfl, rfl, rfl, by decide⟩

/-- C2: the D5x 16-bit register write issues both byte writes at the
register address itself (`writeRegU16` drops the `+ 1` on the high byte),
and `command(0x15)` dispatches `0xA515` to CTRLB with a single 32-bit
`writeWord`, not as a 16-bit two-byte access.  The trace below shows the
STATUS ready polls (byte reads at 0x41004012/13, which do use `reg + 1`),
the 32-bit CTRLB dispatch, and the INTFLAG check. -/
theorem c2_register_access_widths :
    ((d5xWriteRegU16 0x00 0xabcd initSt).2).trace =
      [Ev.writeByte 0x41004000 0xcd, Ev.writeByte 0x41004000 0xab] ∧
    ((d5xCommand env1 1 0x15 initSt).2).trace =
      [Ev.readByte 0x41004012 1, Ev.readByte 0x41004013 1,
       Ev.writeWord 0x41004004 0xa515,
       Ev.readByte 0x41004012 1, Ev.readByte 0x41004013 1,
       Ev.readByte 0x41004010 1, Ev.readByte 0x41004011 1] := ⟨rfl, rfl⟩

/-- C4: `erase(0, 8192)` on a D5x driver with 512-byte pages (erase
granule 16·512 = 8192) covers exactly one granule, yet the driver issues
two EB commands (0xA501), at byte addresses 0 and 8192 — one granule past
the requested range — because the JS loop bound
`(offset + size + eraseSize - 1) / eraseSize` is a floating-point
division that is never truncated. -/
theorem c4_erase_granule_commands :
    (d5xErase geoD5x env1 1 4 0 8192 initSt).1 = Except.ok () ∧
    d5xDispatches ((d5xErase geoD5x env1 1 4 0 8192 initSt).2).trace =
      [0xa501, 0xa501] ∧
    d5xAddrWrites ((d5xErase geoD5x env1 1 4 0 8192 initSt).2).trace =
      [0, 8192] := ⟨rfl, rfl, rfl⟩

/-- C7: after `setBod(false)`, `writeOptions` on a D5x driver with
512-byte pages reads the user page, sets bit 0 of byte 0 (the 16-byte
payload uploaded to SRAM buffer A starts with 1), erases the user page
with EP (0xA500) at `ADDR = 0x804000` — but then issues exactly one PBC
(0xA515) and one WQW (0xA504), writing a single quad-word instead of the
claimed 32, because the rewrite loop steps by the page size instead of 16. -/
theorem c7_writeOptions_bod_quadwords :
    (d5xWriteOptions geoD5x env7 1 4 st7).1 = Except.ok () ∧
    d5xDispatches ((d5xWriteOptions geoD5x env7 1 4 st7).2).trace =
      [0xa500, 0xa515, 0xa504] ∧
    d5xAddrWrites ((d5xWriteOptions geoD5x env7 1 4 st7).2).trace =
      [0x804000, 0x804000] ∧
    sWritesAt (pageBufferA geoD5x) ((d5xWriteOptions geoD5x env7 1 4 st7).2).trace =
      [[1, 0, 0, 0, 0, 0, 0, 0, 0, 0, 0, 0, 0, 0, 0, 0]] := ⟨rfl, rfl, rfl, rfl⟩

/-- C9: on the buffer [0x41, 0x42, 0x43], whose trailing bytes are not
0x0A, 0x0C, `decodeResponse` as written still strips (and first
overwrites) the last two bytes, returning [0x41], while the specified
comparison would return the buffer unmodified. -/
theorem c9_decode_response :
    decodeResponse [0x41, 0x42, 0x43] = [0x41] ∧
    decodeResponseSpec [0x41, 0x42, 0x43] = [0x41, 0x42, 0x43] ∧
    decodeResponse [0x41, 0x42, 0x43] ≠ decodeResponseSpec [0x41, 0x42, 0x43] := by
  refine ⟨rfl, by decide, by decide⟩

/-- Field-wise description of one step of the capability switch. -/
theorem capSwitch_fields (c : Char) (x : SambaCaps) :
    capSwitch c x =
      { canChipErase := x.canChipErase || (c == 'X')
        canWriteBuffer := x.canWriteBuffer || (c == 'Y')
        canChecksumBuffer := x.canChecksumBuffer || (c == 'Z')
        canProtect := x.canProtect || (c == 'P')
        readBufferSize := x.readBufferSize } := by
  cases x
  unfold capSwitch
  split
  · rename_i h1
    simp [h1]
  · split
    · rename_i h1 h2
      simp [h1, h2]
    · split
      · rename_i h1 h2 h3
        simp [h1, h2, h3]
      · split
        · rename_i h1 h2 h3 h4
          simp [h1, h2, h3, h4]
        · rename_i h1 h2 h3 h4
          simp [h1, h2, h3, h4]

/-- The scan loop equals the full fold over the segment before `']'`. -/
theorem capScan_eq_applyAll (l : List Char) (x : SambaCaps) :
    capScan l x = applyAll (l.takeWhile (fun c => c ≠ ']')) x := by
  induction l generalizing x with
  | nil => rfl
  | cons c rest ih =>
    by_cases h : c = ']'
    · simp [capScan, applyAll, h, List.takeWhile_cons]
    · simp [capScan, applyAll, h, List.takeWhile_cons, ih]

/-- The fold over a segment sets each flag iff the matching character
occurs in the segment (or the flag already held). -/
theorem applyAll_fields (l : List Char) (x : SambaCaps) :
    applyAll l x =
      { canChipErase := x.canChipErase || hasChar l 'X'
        canWriteBuffer := x.canWriteBuffer || hasChar l 'Y'
        canChecksumBuffer := x.canChecksumBuffer || hasChar l 'Z'
        canProtect := x.canProtect || hasChar l 'P'
        readBufferSize := x.readBufferSize } := by
  induction l generalizing x with
  | nil => cases x; simp [applyAll, hasChar]
  | cons c rest ih =>
    rw [applyAll, ih, capSwitch_fields]
    simp [hasChar, Bool.or_assoc]

/-- C6: for every version string, the capability state `_connect` computes
is exactly what the claim describes: when `'[Arduino:'` occurs, each of
the characters X, Y, Z, P between the marker and the first `']'` enables
its capability and `readBufferSize` becomes 63; when the marker is absent,
all four flags stay false and `readBufferSize` stays 0. -/
theorem c6_capability_parsing (v : List Char) : connectCaps v = claimCaps v := by
  unfold connectCaps claimCaps
  cases h : markerIdx v with
  | none => rfl
  | some i =>
    dsimp only
    rw [capScan_eq_applyAll, applyAll_fields]
    simp [bracketSeg, initCaps]

/-- A power of two passes the `n & (n-1) == 0` test. -/
theorem and_pred_of_pow2 (k : Nat) : 2 ^ k &&& (2 ^ k - 1) = 0 := by
  apply Nat.eq_of_testBit_eq
  intro i
  rw [Nat.testBit_and, Nat.zero_testBit, Nat.testBit_two_pow_sub_one]
  by_cases h : k = i
  · subst h
    simp
  · rw [Nat.testBit_two_pow_of_ne h]
    simp

/-- A positive number passing the `n & (n-1) == 0` test is a power of
two. -/
theorem pow2_of_and_pred (n : Nat) (h0 : 0 < n) (h : n &&& (n - 1) = 0) :
    ∃ k, n = 2 ^ k := by
  induction n using Nat.strong_induction_on with
  | _ n ih =>
    have hbit : ∀ i, (n.testBit i && (n - 1).testBit i) = false := by
      intro i
      have := congrArg (fun m => m.testBit i) h
      simpa [Nat.testBit_and, Nat.zero_testBit] using this
    rcases Nat.lt_or_ge n 2 with h2 | h2
    · have hn1 : n = 1 := by omega
      exact ⟨0, by omega⟩
    · rcases Nat.even_or_odd n with he | ho
      · -- even: n = 2 * m with m = n / 2
        obtain ⟨m, hm⟩ := he
        have hm2 : n = 2 * m := by omega
        have hmpos : 0 < m := by omega
        have hdiv : n / 2 = m := by omega
        have hdiv1 : (n - 1) / 2 = m - 1 := by omega
        have hmtest : m &&& (m - 1) = 0 := by
          apply Nat.eq_of_testBit_eq
          intro i
          rw [Nat.testBit_and, Nat.zero_testBit]
          have := hbit (i + 1)
          rw [Nat.testBit_succ, Nat.testBit_succ, hdiv, hdiv1] at this
          exact this
        obtain ⟨k, hk⟩ := ih m (by omega) hmpos hmtest
        refine ⟨k + 1, ?_⟩
        rw [pow_succ, ← hk]
        omega
      · -- odd and at least 3: the test cannot pass
        exfalso
        have hm2 : n = 2 * (n / 2) + 1 := by
          rcases ho with ⟨m, hm⟩
          omega
        set m := n / 2 with hmdef
        have hmpos : 0 < m := by omega
        have hx : ∃ i, m.testBit i = true := by
          by_contra hall
          push_neg at hall
          have : m = 0 := by
            apply Nat.eq_of_testBit_eq
            intro i
            rw [Nat.zero_testBit]
            simpa using hall i
          omega
        obtain ⟨i, hi⟩ := hx
        have h1 : n.testBit (i + 1) = true := by
          rw [Nat.testBit_succ]
          simpa [hmdef] using hi
        have h2b : (n - 1).testBit (i + 1) = true := by
          rw [Nat.testBit_succ]
          have hh : (n - 1) / 2 = m := by omega
          simpa [hh] using hi
        have := hbit (i + 1)
        rw [h1, h2b] at this
        simp at this

/-- With no read limit, the chunk loop issues one command for the whole
size. -/
theorem readChunks_no_limit (addr size : Nat) (h : 0 < size) :
    readChunks 0 addr size = [RCmd.rBlock addr size] := by
  rw [readChunks]
  simp [Nat.ne_of_gt h]
  rw [readChunks]
  simp

/-- With a positive read limit, every command the loop issues transfers at
most that many bytes. -/
theorem readChunks_le (rbs : Nat) (h : 0 < rbs) :
    ∀ addr size, ∀ c ∈ readChunks rbs addr size, c.size ≤ rbs := by
  intro addr size
  induction size using Nat.strong_induction_on generalizing addr with
  | _ size ih =>
    intro c hc
    rw [readChunks] at hc
    by_cases hz : size = 0
    · simp [hz] at hc
    · simp only [hz, dite_false] at hc
      rcases List.mem_cons.mp hc with hhead | htail
      · subst hhead
        by_cases hlt : rbs < size
        · simp [RCmd.size, h, hlt]
        · simp [RCmd.size, h, hlt]
          omega
      · by_cases hlt : rbs < size
        · simp only [h, hlt, and_self, if_true] at htail
          exact ih (size - rbs) (by omega) (addr + rbs) c htail
        · have hchunk : (if 0 < rbs ∧ rbs < size then rbs else size) = size := by
            simp [hlt]
          rw [hchunk] at htail
          have hz2 : size - size = 0 := by omega
          rw [hz2, readChunks] at htail
          simp at htail

/-- C8: `SamBA.read` issues exactly the claimed wire commands: with
`readBufferSize = 0` and a power-of-two size over 32, one `readByte`
followed by one `R` of `size - 1` bytes; with `readBufferSize = 0` and any
other positive size, a single `R` of the full size; and with
`readBufferSize > 0` every issued command transfers at most
`readBufferSize` bytes. -/
theorem c8_read_quirk (rbs addr size : Nat) :
    (rbs = 0 → 32 < size → (∃ k, size = 2 ^ k) →
      sambaReadCmds rbs addr size =
        [RCmd.rByte addr, RCmd.rBlock (addr + 1) (size - 1)]) ∧
    (rbs = 0 → 0 < size → ¬(32 < size ∧ ∃ k, size = 2 ^ k) →
      sambaReadCmds rbs addr size = [RCmd.rBlock addr size]) ∧
    (0 < rbs → ∀ c ∈ sambaReadCmds rbs addr size, c.size ≤ rbs) := by
  refine ⟨?_, ?_, ?_⟩
  · rintro rfl h32 ⟨k, rfl⟩
    rw [sambaReadCmds, if_pos ⟨rfl, h32, and_pred_of_pow2 k⟩,
      readChunks_no_limit (addr + 1) (2 ^ k - 1) (by omega)]
  · rintro rfl hpos hnot
    rw [sambaReadCmds, if_neg, readChunks_no_limit addr size hpos]
    rintro ⟨-, h32, htest⟩
    exact hnot ⟨h32, pow2_of_and_pred size hpos htest⟩
  · intro hrbs c hc
    rw [sambaReadCmds, if_neg (by rintro ⟨rfl, -⟩; omega)] at hc
    exact readChunks_le rbs hrbs addr size c hc

/-- C8 witness: the claimed shapes at concrete inputs — a 64-byte read at
0x1000 is one `readByte` plus one 63-byte `R`; a 48-byte read is a single
`R`; with `readBufferSize = 63` a 100-byte read stays within 63-byte
commands. -/
theorem c8_read_quirk_app :
    sambaReadCmds 0 0x1000 64 =
      [RCmd.rByte 0x1000, RCmd.rBlock 0x1001 63] ∧
    sambaReadCmds 0 0x1000 48 = [RCmd.rBlock 0x1000 48] ∧
    (∀ c ∈ sambaReadCmds 63 0x1000 100, c.size ≤ 63) := by
  refine ⟨?_, ?_, ?_⟩
  · exact (c8_read_quirk 0 0x1000 64).1 rfl (by omega) ⟨6, rfl⟩
  · refine (c8_read_quirk 0 0x1000 48).2.1 rfl (by omega) ?_
    rintro ⟨-, k, hk⟩
    rcases Nat.lt_or_ge k 6 with h6 | h6
    · have : 2 ^ k ≤ 2 ^ 5 := Nat.pow_le_pow_right (by omega) (by omega)
      omega
    · have : 2 ^ 6 ≤ 2 ^ k := Nat.pow_le_pow_right (by omega) h6
      omega
  · exact (c8_read_quirk 63 0x1000 100).2.2 (by omega)

/-! ### Plain computations: trace-append with no toggle and no launch -/

/-- Run equation for `emit`. -/
theorem run_emit (e : Ev) (s : St) :
    emit e s = (Except.ok (), { s with trace := s.trace ++ [e] }) := rfl

/-- Run equation for `sambaReadWordM`. -/
theorem run_readWord (env : Env) (addr : Nat) (s : St) :
    sambaReadWordM env addr s =
      (Except.ok (env.reg s.readCnt % 4294967296),
        { s with readCnt := s.readCnt + 1
                 trace := s.trace ++ [Ev.readWord addr (env.reg s.readCnt % 4294967296)] }) := rfl

/-- Run equation for `sambaReadByteM`. -/
theorem run_readByte (env : Env) (addr : Nat) (s : St) :
    sambaReadByteM env addr s =
      (Except.ok (env.reg s.readCnt % 256),
        { s with readCnt := s.readCnt + 1
                 trace := s.trace ++ [Ev.readByte addr (env.reg s.readCnt % 256)] }) := rfl

/-- `pure` is plain. -/
theorem plain_pure {α : Type} (a : α) : Plain (pure a : StM α) := by
  intro s r s1 h
  rw [StM.run_pure] at h
  injection h with h1 h2
  subst h1; subst h2
  exact ⟨[], by simp, by simp, rfl⟩

/-- `throwE` is plain. -/
theorem plain_throwE {α : Type} (e : Err) : Plain (throwE e : StM α) := by
  intro s r s1 h
  injection h with h1 h2
  subst h1; subst h2
  exact ⟨[], by simp, by simp, rfl⟩

/-- `getSt` is plain. -/
theorem plain_getSt : Plain getSt := by
  intro s r s1 h
  injection h with h1 h2
  subst h1; subst h2
  exact ⟨[], by simp, by simp, rfl⟩

/-- `setInstalled` is plain. -/
theorem plain_setInstalled : Plain setInstalled := by
  intro s r s1 h
  injection h with h1 h2
  subst h1; subst h2
  exact ⟨[], by simp, by simp, rfl⟩

/-- `setPrepared` is plain. -/
theorem plain_setPrepared : Plain setPrepared := by
  intro s r s1 h
  injection h with h1 h2
  subst h1; subst h2
  exact ⟨[], by simp, by simp, rfl⟩

/-- `emit` of a non-toggle, non-go event is plain. -/
theorem plain_emit (e : Ev) (he : plainEv e) : Plain (emit e) := by
  intro s r s1 h
  injection h with h1 h2
  subst h1; subst h2
  exact ⟨[e], by simp, by simpa using he, rfl⟩

/-- Byte reads are plain. -/
theorem plain_readByte (env : Env) (addr : Nat) : Plain (sambaReadByteM env addr) := by
  intro s r s1 h
  injection h with h1 h2
  subst h1; subst h2
  exact ⟨[Ev.readByte addr (env.reg s.readCnt % 256)], by simp,
    by simp [plainEv, isToggle, isGo], rfl⟩

/-- Word reads are plain. -/
theorem plain_readWord (env : Env) (addr : Nat) : Plain (sambaReadWordM env addr) := by
  intro s r s1 h
  injection h with h1 h2
  subst h1; subst h2
  exact ⟨[Ev.readWord addr (env.reg s.readCnt % 4294967296)], by simp,
    by simp [plainEv, isToggle, isGo], rfl⟩

/-- Byte writes are plain. -/
theorem plain_writeByte (addr value : Nat) : Plain (sambaWriteByteM addr value) :=
  plain_emit _ ⟨rfl, rfl⟩

/-- Word writes are plain. -/
theorem plain_writeWord (addr value : Nat) : Plain (sambaWriteWordM addr value) :=
  plain_emit _ ⟨rfl, rfl⟩

/-- Buffer uploads are plain. -/
theorem plain_sWrite (addr : Nat) (data : List Nat) : Plain (sambaWriteM addr data) :=
  plain_emit _ ⟨rfl, rfl⟩

/-- Block reads are plain. -/
theorem plain_blockRead (env : Env) (addr size : Nat) :
    Plain (sambaBlockReadM env addr size) := by
  intro s r s1 h
  injection h with h1 h2
  subst h1; subst h2
  exact ⟨[Ev.sRead addr size], by simp, by simp [plainEv, isToggle, isGo], rfl⟩

/-- `bind` of plain computations is plain. -/
theorem plain_bind {α β : Type} {m : StM α} {f : α → StM β}
    (hm : Plain m) (hf : ∀ a, Plain (f a)) : Plain (m >>= f) := by
  intro s r s2 h
  rw [StM.run_bind] at h
  rcases hms : m s with ⟨r1, s1⟩
  rw [hms] at h
  cases r1 with
  | ok a =>
    obtain ⟨t1, ht1, hpl1, hb1⟩ := hm s _ _ hms
    obtain ⟨t2, ht2, hpl2, hb2⟩ := hf a s1 _ _ h
    refine ⟨t1 ++ t2, ?_, ?_, ?_⟩
    · rw [ht2, ht1, List.append_assoc]
    · intro e he
      rcases List.mem_append.mp he with h' | h'
      exacts [hpl1 e h', hpl2 e h']
    · rw [hb2, hb1]
  | error e =>
    injection h with h1 h2
    subst h1; subst h2
    obtain ⟨t1, ht1, hpl1, hb1⟩ := hm s _ _ hms
    exact ⟨t1, ht1, hpl1, hb1⟩

/-- An `if` with plain branches is plain. -/
theorem plain_ite {α : Type} (c : Prop) [Decidable c] {m1 m2 : StM α}
    (h1 : Plain m1) (h2 : Plain m2) : Plain (if c then m1 else m2) := by
  by_cases hc : c
  · simpa [hc] using h1
  · simpa [hc] using h2

/-- D2x register reads are plain. -/
theorem plain_d2xReadReg (env : Env) (reg : Nat) : Plain (d2xReadReg env reg) :=
  plain_readWord env _

/-- D2x register writes are plain. -/
theorem plain_d2xWriteReg (reg value : Nat) : Plain (d2xWriteReg reg value) :=
  plain_writeWord _ _

/-- D5x 16-bit register reads are plain. -/
theorem plain_d5xReadRegU16 (env : Env) (reg : Nat) : Plain (d5xReadRegU16 env reg) := by
  unfold d5xReadRegU16
  exact plain_bind (plain_readByte env _) fun _ =>
    plain_bind (plain_readByte env _) fun _ => plain_pure _

/-- D5x 16-bit register writes are plain. -/
theorem plain_d5xWriteRegU16 (reg value : Nat) : Plain (d5xWriteRegU16 reg value) := by
  unfold d5xWriteRegU16
  exact plain_bind (plain_writeByte _ _) fun _ => plain_writeByte _ _

/-- D5x 32-bit register reads are plain. -/
theorem plain_d5xReadRegU32 (env : Env) (reg : Nat) : Plain (d5xReadRegU32 env reg) :=
  plain_readWord env _

/-- D5x 32-bit register writes are plain. -/
theorem plain_d5xWriteRegU32 (reg value : Nat) : Plain (d5xWriteRegU32 reg value) :=
  plain_writeWord _ _

/-- Unfolding the D2x ready poll at fuel 0. -/
theorem d2xWaitReady_zero (env : Env) :
    d2xWaitReady env 0 = throwE Err.timeout := rfl

/-- Unfolding the D2x ready poll at positive fuel. -/
theorem d2xWaitReady_succ (env : Env) (fuel : Nat) :
    d2xWaitReady env (fuel + 1) =
      (do
        let v ← d2xReadReg env 0x14
        if v &&& 0x1 = 0 then d2xWaitReady env fuel else pure ()) := rfl

/-- Unfolding the D5x ready poll at fuel 0. -/
theorem d5xWaitReady_zero (env : Env) :
    d5xWaitReady env 0 = throwE Err.timeout := rfl

/-- Unfolding the D5x ready poll at positive fuel. -/
theorem d5xWaitReady_succ (env : Env) (fuel : Nat) :
    d5xWaitReady env (fuel + 1) =
      (do
        let v ← d5xReadRegU16 env 0x12
        if v &&& 0x1 = 0 then d5xWaitReady env fuel else pure ()) := rfl

/-- The D2x ready poll is plain. -/
theorem plain_d2xWaitReady (env : Env) (fuel : Nat) : Plain (d2xWaitReady env fuel) := by
  induction fuel with
  | zero => rw [d2xWaitReady_zero]; exact plain_throwE _
  | succ fuel ih =>
    rw [d2xWaitReady_succ]
    exact plain_bind (plain_d2xReadReg env _) fun v =>
      plain_ite _ ih (plain_pure _)

/-- The D5x ready poll is plain. -/
theorem plain_d5xWaitReady (env : Env) (fuel : Nat) : Plain (d5xWaitReady env fuel) := by
  induction fuel with
  | zero => rw [d5xWaitReady_zero]; exact plain_throwE _
  | succ fuel ih =>
    rw [d5xWaitReady_succ]
    exact plain_bind (plain_d5xReadRegU16 env _) fun v =>
      plain_ite _ ih (plain_pure _)

/-- The D2x command handshake is plain. -/
theorem plain_d2xCommand (env : Env) (fuel cmd : Nat) : Plain (d2xCommand env fuel cmd) := by
  unfold d2xCommand
  exact plain_bind (plain_d2xWaitReady env fuel) fun _ =>
    plain_bind (plain_d2xWriteReg _ _) fun _ =>
      plain_bind (plain_d2xWaitReady env fuel) fun _ =>
        plain_bind (plain_d2xReadReg env _) fun v =>
          plain_ite _
            (plain_bind (plain_d2xWriteReg _ _) fun _ => plain_throwE _)
            (plain_pure _)

/-- The D5x command handshake is plain. -/
theorem plain_d5xCommand (env : Env) (fuel cmd : Nat) : Plain (d5xCommand env fuel cmd) := by
  unfold d5xCommand
  exact plain_bind (plain_d5xWaitReady env fuel) fun _ =>
    plain_bind (plain_d5xWriteRegU32 _ _) fun _ =>
      plain_bind (plain_d5xWaitReady env fuel) fun _ =>
        plain_bind (plain_d5xReadRegU16 env _) fun v =>
          plain_ite _
            (plain_bind (plain_d5xWriteRegU16 _ _) fun _ => plain_throwE _)
            (plain_pure _)

/-- Unfolding the D2x erase loop at fuel 0. -/
theorem d2xEraseLoop_zero (env : Env) (fuel es bound n : Nat) :
    d2xEraseLoop env fuel es bound n 0 = throwE Err.timeout := rfl

/-- Unfolding the D2x erase loop at positive fuel. -/
theorem d2xEraseLoop_succ (env : Env) (fuel es bound n lf : Nat) :
    d2xEraseLoop env fuel es bound n (lf + 1) =
      (do
        if n * es < bound then
          d2xWaitReady env fuel
          let statusReg ← d2xReadReg env 0x18
          d2xWriteReg 0x18 (statusReg ||| 0xffeb)
          d2xWriteReg 0x1c (n * es / 2)
          d2xCommand env fuel 0x02
          d2xEraseLoop env fuel es bound (n + 1) lf
        else pure ()) := rfl

/-- Unfolding the D5x erase loop at fuel 0. -/
theorem d5xEraseLoop_zero (env : Env) (fuel es bound n : Nat) :
    d5xEraseLoop env fuel es bound n 0 = throwE Err.timeout := rfl

/-- Unfolding the D5x erase loop at positive fuel. -/
theorem d5xEraseLoop_succ (env : Env) (fuel es bound n lf : Nat) :
    d5xEraseLoop env fuel es bound n (lf + 1) =
      (do
        if n * es < bound then
          d5xWriteRegU32 0x14 (n * es)
          d5xCommand env fuel 0x01
          d5xEraseLoop env fuel es bound (n + 1) lf
        else pure ()) := rfl

/-- The D2x erase loop is plain. -/
theorem plain_d2xEraseLoop (env : Env) (fuel es bound : Nat) (lf : Nat) :
    ∀ n, Plain (d2xEraseLoop env fuel es bound n lf) := by
  induction lf with
  | zero => intro n; rw [d2xEraseLoop_zero]; exact plain_throwE _
  | succ lf ih =>
    intro n
    rw [d2xEraseLoop_succ]
    exact plain_ite _
      (plain_bind (plain_d2xWaitReady env fuel) fun _ =>
        plain_bind (plain_d2xReadReg env _) fun _ =>
          plain_bind (plain_d2xWriteReg _ _) fun _ =>
            plain_bind (plain_d2xWriteReg _ _) fun _ =>
              plain_bind (plain_d2xCommand env fuel _) fun _ => ih (n + 1))
      (plain_pure _)

/-- The D5x erase loop is plain. -/
theorem plain_d5xEraseLoop (env : Env) (fuel es bound : Nat) (lf : Nat) :
    ∀ n, Plain (d5xEraseLoop env fuel es bound n lf) := by
  induction lf with
  | zero => intro n; rw [d5xEraseLoop_zero]; exact plain_throwE _
  | succ lf ih =>
    intro n
    rw [d5xEraseLoop_succ]
    exact plain_ite _
      (plain_bind (plain_d5xWriteRegU32 _ _) fun _ =>
        plain_bind (plain_d5xCommand env fuel _) fun _ => ih (n + 1))
      (plain_pure _)

/-- `erase` is plain on both drivers. -/
theorem plain_d2xErase (g : Geo) (env : Env) (fuel lf offset size : Nat) :
    Plain (d2xErase g env fuel lf offset size) := by
  unfold d2xErase
  exact plain_ite _ (plain_throwE _)
    (plain_ite _ (plain_throwE _) (plain_d2xEraseLoop env fuel _ _ lf _))

/-- `erase` is plain on the D5x driver as well. -/
theorem plain_d5xErase (g : Geo) (env : Env) (fuel lf offset size : Nat) :
    Plain (d5xErase g env fuel lf offset size) := by
  unfold d5xErase
  exact plain_ite _ (plain_throwE _)
    (plain_ite _ (plain_throwE _) (plain_d5xEraseLoop env fuel _ _ lf _))

/-- `checkInstall` is plain (the code upload is an `S` command). -/
theorem plain_checkInstall (user : Nat) : Plain (checkInstall user) := by
  unfold checkInstall
  exact plain_bind plain_getSt fun s =>
    plain_ite _ (plain_pure _)
      (plain_bind (plain_sWrite _ _) fun _ => plain_setInstalled)

/-- The applet parameter setters are plain. -/
theorem plain_wcSetDstAddr (user v : Nat) : Plain (wcSetDstAddr user v) := by
  unfold wcSetDstAddr
  exact plain_bind (plain_checkInstall user) fun _ => plain_writeWord _ _

/-- `setSrcAddr` is plain. -/
theorem plain_wcSetSrcAddr (user v : Nat) : Plain (wcSetSrcAddr user v) := by
  unfold wcSetSrcAddr
  exact plain_bind (plain_checkInstall user) fun _ => plain_writeWord _ _

/-- `setWords` is plain. -/
theorem plain_wcSetWords (user v : Nat) : Plain (wcSetWords user v) := by
  unfold wcSetWords
  exact plain_bind (plain_checkInstall user) fun _ => plain_writeWord _ _

/-- `setStack` is plain. -/
theorem plain_wcSetStack (user v : Nat) : Plain (wcSetStack user v) := by
  unfold wcSetStack
  exact plain_bind (plain_checkInstall user) fun _ => plain_writeWord _ _

/-- `prepareApplet` is plain. -/
theorem plain_prepareApplet (g : Geo) : Plain (prepareApplet g) := by
  unfold prepareApplet
  exact plain_bind plain_getSt fun s =>
    plain_ite _ (plain_pure _)
      (plain_bind (plain_wcSetWords _ _) fun _ =>
        plain_bind (plain_wcSetStack _ _) fun _ => plain_setPrepared)

/-- `loadBuffer` is plain. -/
theorem plain_loadBuffer (g : Geo) (data : Nat → Nat) (offset size : Nat) :
    Plain (loadBuffer g data offset size) := by
  unfold loadBuffer
  exact plain_bind plain_getSt fun s => plain_sWrite _ _

/-- `runv` launches the applet: it appends a trace segment that contains a
`go` event and no toggle, leaves `onBufferA` alone, and always succeeds. -/
theorem wcRunv_shape (user : Nat) (s : St) :
    ∃ t, wcRunv user s =
        (Except.ok (), { s with trace := s.trace ++ t
                                installed := true }) ∧
      (∃ e ∈ t, isGo e = true) ∧ (∀ e ∈ t, isToggle e = false) := by
  cases s with
  | mk cnt tr oa ea pr ins b1 b2 b3 b4 =>
    cases ins with
    | true =>
      refine ⟨[Ev.writeWord (user + 0x24) ((user + 0x0 + 1) % 4294967296),
        Ev.go (user + 0x20)], ?_, ⟨Ev.go (user + 0x20), by simp, rfl⟩, ?_⟩
      · have hrun : wcRunv user ⟨cnt, tr, oa, ea, pr, true, b1, b2, b3, b4⟩ =
            (Except.ok (),
              ⟨cnt, tr ++ [Ev.writeWord (user + 0x24) ((user + 0x0 + 1) % 4294967296)]
                ++ [Ev.go (user + 0x20)], oa, ea, pr, true, b1, b2, b3, b4⟩) := rfl
        rw [hrun]
        simp
      · intro e he
        simp at he
        rcases he with rfl | rfl
        · rfl
        · rfl
    | false =>
      refine ⟨[Ev.sWrite user appletCode,
        Ev.writeWord (user + 0x24) ((user + 0x0 + 1) % 4294967296),
        Ev.go (user + 0x20)], ?_, ⟨Ev.go (user + 0x20), by simp, rfl⟩, ?_⟩
      · have hrun : wcRunv user ⟨cnt, tr, oa, ea, pr, false, b1, b2, b3, b4⟩ =
            (Except.ok (),
              ⟨cnt, tr ++ [Ev.sWrite user appletCode]
                ++ [Ev.writeWord (user + 0x24) ((user + 0x0 + 1) % 4294967296)]
                ++ [Ev.go (user + 0x20)], oa, ea, pr, true, b1, b2, b3, b4⟩) := rfl
        rw [hrun]
        simp
      · intro e he
        simp at he
        rcases he with rfl | rfl | rfl
        · rfl
        · rfl
        · rfl

/-- A run of the D2x ready poll either times out or succeeds having read
INTFLAG at least once (and nothing else). -/
theorem d2xWaitReady_cases (env : Env) (fuel : Nat) :
    ∀ s r s1, d2xWaitReady env fuel s = (r, s1) →
      r = Except.error Err.timeout ∨
      (r = Except.ok () ∧
        ∃ t, s1.trace = s.trace ++ t ∧ t ≠ [] ∧ ∀ e ∈ t, d2xReadyRead e) := by
  induction fuel with
  | zero =>
    intro s r s1 h
    injection h with h1 h2
    exact Or.inl h1.symm
  | succ fuel ih =>
    intro s r s1 h
    have hstep : d2xWaitReady env (fuel + 1) s =
        (if (env.reg s.readCnt % 4294967296) &&& 0x1 = 0
          then d2xWaitReady env fuel else pure ())
          { s with readCnt := s.readCnt + 1
                   trace := s.trace ++
                     [Ev.readWord 0x41004014 (env.reg s.readCnt % 4294967296)] } := rfl
    rw [hstep] at h
    by_cases hv : (env.reg s.readCnt % 4294967296) &&& 0x1 = 0
    · rw [if_pos hv] at h
      rcases ih _ r s1 h with ht | ⟨hok, t, htr, hne, hrr⟩
      · exact Or.inl ht
      · refine Or.inr ⟨hok,
          Ev.readWord 0x41004014 (env.reg s.readCnt % 4294967296) :: t, ?_, by simp, ?_⟩
        · rw [htr]
          simp
        · intro e he
          rcases List.mem_cons.mp he with rfl | h'
          · exact ⟨_, rfl⟩
          · exact hrr e h'
    · rw [if_neg hv, StM.run_pure] at h
      injection h with h1 h2
      subst h2
      refine Or.inr ⟨h1.symm,
        [Ev.readWord 0x41004014 (env.reg s.readCnt % 4294967296)], by simp, by simp, ?_⟩
      intro e he
      rcases List.mem_cons.mp he with rfl | h'
      · exact ⟨_, rfl⟩
      · simp at h'

/-- A run of the D5x ready poll either times out or succeeds having read
the two STATUS bytes at least once (and nothing else). -/
theorem d5xWaitReady_cases (env : Env) (fuel : Nat) :
    ∀ s r s1, d5xWaitReady env fuel s = (r, s1) →
      r = Except.error Err.timeout ∨
      (r = Except.ok () ∧
        ∃ t, s1.trace = s.trace ++ t ∧ t ≠ [] ∧ ∀ e ∈ t, d5xReadyRead e) := by
  induction fuel with
  | zero =>
    intro s r s1 h
    injection h with h1 h2
    exact Or.inl h1.symm
  | succ fuel ih =>
    intro s r s1 h
    have hstep : d5xWaitReady env (fuel + 1) s =
        (if ((env.reg s.readCnt % 256) |||
              ((env.reg (s.readCnt + 1) % 256) <<< 8)) &&& 0x1 = 0
          then d5xWaitReady env fuel else pure ())
          { s with readCnt := s.readCnt + 1 + 1
                   trace := s.trace ++
                       [Ev.readByte 0x41004012 (env.reg s.readCnt % 256)] ++
                       [Ev.readByte 0x41004013 (env.reg (s.readCnt + 1) % 256)] } := rfl
    rw [hstep] at h
    by_cases hv : ((env.reg s.readCnt % 256) |||
        ((env.reg (s.readCnt + 1) % 256) <<< 8)) &&& 0x1 = 0
    · rw [if_pos hv] at h
      rcases ih _ r s1 h with ht | ⟨hok, t, htr, hne, hrr⟩
      · exact Or.inl ht
      · refine Or.inr ⟨hok,
          Ev.readByte 0x41004012 (env.reg s.readCnt % 256) ::
            Ev.readByte 0x41004013 (env.reg (s.readCnt + 1) % 256) :: t, ?_, by simp, ?_⟩
        · rw [htr]
          simp
        · intro e he
          rcases List.mem_cons.mp he with rfl | h'
          · exact ⟨_, Or.inl rfl⟩
          · rcases List.mem_cons.mp h' with rfl | h''
            · exact ⟨_, Or.inr rfl⟩
            · exact hrr e h''
    · rw [if_neg hv, StM.run_pure] at h
      injection h with h1 h2
      subst h2
      refine Or.inr ⟨h1.symm,
        [Ev.readByte 0x41004012 (env.reg s.readCnt % 256),
         Ev.readByte 0x41004013 (env.reg (s.readCnt + 1) % 256)], by simp, by simp, ?_⟩
      intro e he
      rcases List.mem_cons.mp he with rfl | h'
      · exact ⟨_, Or.inl rfl⟩
      · rcases List.mem_cons.mp h' with rfl | h''
        · exact ⟨_, Or.inr rfl⟩
        · simp at h''

/-- Case split for a `bind` run. -/
theorem StM.bind_cases {α β : Type} {m : StM α} {f : α → StM β} {s : St}
    {r : Except Err β} {s2 : St} (h : (m >>= f) s = (r, s2)) :
    (∃ a s1, m s = (Except.ok a, s1) ∧ f a s1 = (r, s2)) ∨
    (∃ e s1, m s = (Except.error e, s1) ∧ r = Except.error e ∧ s2 = s1) := by
  rw [StM.run_bind] at h
  rcases hm : m s with ⟨r1, s1⟩
  rw [hm] at h
  cases r1 with
  | ok a => exact Or.inl ⟨a, s1, rfl, h⟩
  | error e =>
    injection h with h1 h2
    exact Or.inr ⟨e, s1, rfl, h1.symm, h2.symm⟩

/-- Advance a `bind` run over a step with a known result. -/
theorem StM.bind_det {α β : Type} {m : StM α} {f : α → StM β} {s : St} {a : α}
    {s1 : St} (hm : m s = (Except.ok a, s1)) {r : Except Err β} {s2 : St}
    (h : (m >>= f) s = (r, s2)) : f a s1 = (r, s2) := by
  rw [StM.run_bind, hm] at h
  exact h

/-- C3: on both drivers, any `command(cmd)` run that does not time out
shows the claimed discipline on the wire: a nonempty block of ready polls,
then the single dispatch to the control register, then another nonempty
block of ready polls, then the error-flag read (and nothing between those
sections). -/
theorem c3_command_ready_discipline (env : Env) (fuel cmd : Nat) (s : St) :
    (∀ r s2, d2xCommand env fuel cmd s = (r, s2) →
      r ≠ Except.error Err.timeout →
      ∃ t1 t2 v rest,
        s2.trace = s.trace ++ t1 ++
          [Ev.writeWord 0x41004000 ((0xa500 ||| cmd) % 4294967296)] ++ t2 ++
          [Ev.readWord 0x41004014 v] ++ rest ∧
        t1 ≠ [] ∧ t2 ≠ [] ∧ (∀ e ∈ t1, d2xReadyRead e) ∧ (∀ e ∈ t2, d2xReadyRead e)) ∧
    (∀ r s2, d5xCommand env fuel cmd s = (r, s2) →
      r ≠ Except.error Err.timeout →
      ∃ t1 t2 v1 v2 rest,
        s2.trace = s.trace ++ t1 ++
          [Ev.writeWord 0x41004004 ((0xa500 ||| cmd) % 4294967296)] ++ t2 ++
          [Ev.readByte 0x41004010 v1, Ev.readByte 0x41004011 v2] ++ rest ∧
        t1 ≠ [] ∧ t2 ≠ [] ∧ (∀ e ∈ t1, d5xReadyRead e) ∧ (∀ e ∈ t2, d5xReadyRead e)) := by
  constructor
  · intro r s2 h hr
    unfold d2xCommand at h
    rcases StM.bind_cases h with ⟨a1, s1, h1, h⟩ | ⟨e, s1, h1, hre, -⟩
    · obtain ⟨-, t1, ht1, hne1, hrr1⟩ :=
        (d2xWaitReady_cases env fuel s _ _ h1).resolve_left (by simp)
      replace h := StM.bind_det
        (show d2xWriteReg 0x00 (0xa500 ||| cmd) s1 =
          (Except.ok (), { s1 with trace := s1.trace ++
            [Ev.writeWord 0x41004000 ((0xa500 ||| cmd) % 4294967296)] }) from rfl) h
      rcases StM.bind_cases h with ⟨a2, s2', h2, h⟩ | ⟨e, s2', h2, hre, -⟩
      · obtain ⟨-, t2, ht2, hne2, hrr2⟩ :=
          (d2xWaitReady_cases env fuel _ _ _ h2).resolve_left (by simp)
        replace h := StM.bind_det
          (show d2xReadReg env 0x14 s2' =
            (Except.ok (env.reg s2'.readCnt % 4294967296),
              { s2' with readCnt := s2'.readCnt + 1
                         trace := s2'.trace ++
                           [Ev.readWord 0x41004014 (env.reg s2'.readCnt % 4294967296)] })
            from rfl) h
      -- h is now the run of the final error-check `if`
        by_cases hv : (env.reg s2'.readCnt % 4294967296) &&& 0x2 ≠ 0
        · rw [if_pos hv] at h
          replace h := StM.bind_det
            (show d2xWriteReg 0x14 0x2 _ = (Except.ok (), _) from rfl) h
          rw [show (throwE Err.flashCmd : StM Unit) _ = (Except.error Err.flashCmd, _)
            from rfl] at h
          injection h with hA hB
          refine ⟨t1, t2, env.reg s2'.readCnt % 4294967296,
            [Ev.writeWord 0x41004014 0x2], ?_, hne1, hne2, hrr1, hrr2⟩
          rw [← hB]
          simp [ht2, ht1]
        · rw [if_neg hv, StM.run_pure] at h
          injection h with hA hB
          refine ⟨t1, t2, env.reg s2'.readCnt % 4294967296, [], ?_, hne1, hne2, hrr1, hrr2⟩
          rw [← hB]
          simp [ht2, ht1]
      · rcases (d2xWaitReady_cases env fuel _ _ _ h2) with h' | ⟨h', -⟩
        · exact absurd (hre.trans h') hr
        · simp at h'
    · rcases (d2xWaitReady_cases env fuel s _ _ h1) with h' | ⟨h', -⟩
      · exact absurd (hre.trans h') hr
      · simp at h'
  · intro r s2 h hr
    unfold d5xCommand at h
    rcases StM.bind_cases h with ⟨a1, s1, h1, h⟩ | ⟨e, s1, h1, hre, -⟩
    · obtain ⟨-, t1, ht1, hne1, hrr1⟩ :=
        (d5xWaitReady_cases env fuel s _ _ h1).resolve_left (by simp)
      replace h := StM.bind_det
        (show d5xWriteRegU32 0x04 (0xa500 ||| cmd) s1 =
          (Except.ok (), { s1 with trace := s1.trace ++
            [Ev.writeWord 0x41004004 ((0xa500 ||| cmd) % 4294967296)] }) from rfl) h
      rcases StM.bind_cases h with ⟨a2, s2', h2, h⟩ | ⟨e, s2', h2, hre, -⟩
      · obtain ⟨-, t2, ht2, hne2, hrr2⟩ :=
          (d5xWaitReady_cases env fuel _ _ _ h2).resolve_left (by simp)
        replace h := StM.bind_det
          (show d5xReadRegU16 env 0x10 s2' =
            (Except.ok ((env.reg s2'.readCnt % 256) |||
                ((env.reg (s2'.readCnt + 1) % 256) <<< 8)),
              { s2' with readCnt := s2'.readCnt + 1 + 1
                         trace := s2'.trace ++
                           [Ev.readByte 0x41004010 (env.reg s2'.readCnt % 256)] ++
                           [Ev.readByte 0x41004011 (env.reg (s2'.readCnt + 1) % 256)] })
            from rfl) h
        by_cases hv : ((env.reg s2'.readCnt % 256) |||
            ((env.reg (s2'.readCnt + 1) % 256) <<< 8)) &&& 0xce ≠ 0
        · rw [if_pos hv] at h
          replace h := StM.bind_det
            (show d5xWriteRegU16 0x10 0xce _ = (Except.ok (), _) from rfl) h
          rw [show (throwE Err.flashCmd : StM Unit) _ = (Except.error Err.flashCmd, _)
            from rfl] at h
          injection h with hA hB
          refine ⟨t1, t2, env.reg s2'.readCnt % 256, env.reg (s2'.readCnt + 1) % 256,
            [Ev.writeByte 0x41004010 0xce, Ev.writeByte 0x41004010 0x00], ?_,
            hne1, hne2, hrr1, hrr2⟩
          rw [← hB]
          simp [ht2, ht1]
          decide
        · rw [if_neg hv, StM.run_pure] at h
          injection h with hA hB
          refine ⟨t1, t2, env.reg s2'.readCnt % 256, env.reg (s2'.readCnt + 1) % 256,
            [], ?_, hne1, hne2, hrr1, hrr2⟩
          rw [← hB]
          simp [ht2, ht1]
      · rcases (d5xWaitReady_cases env fuel _ _ _ h2) with h' | ⟨h', -⟩
        · exact absurd (hre.trans h') hr
        · simp at h'
    · rcases (d5xWaitReady_cases env fuel s _ _ h1) with h' | ⟨h', -⟩
      · exact absurd (hre.trans h') hr
      · simp at h'

/-- C3 witness: both command runs with a ready target and `cmd = 2`
complete, and the theorem yields the claimed ready/dispatch/ready/check
shape of their traces. -/
theorem c3_command_ready_discipline_app :
    (∃ t1 t2 v rest,
      ((d2xCommand env1 1 2 initSt).2).trace = initSt.trace ++ t1 ++
        [Ev.writeWord 0x41004000 ((0xa500 ||| 2) % 4294967296)] ++ t2 ++
        [Ev.readWord 0x41004014 v] ++ rest ∧
      t1 ≠ [] ∧ t2 ≠ [] ∧ (∀ e ∈ t1, d2xReadyRead e) ∧ (∀ e ∈ t2, d2xReadyRead e)) ∧
    (∃ t1 t2 v1 v2 rest,
      ((d5xCommand env1 1 2 initSt).2).trace = initSt.trace ++ t1 ++
        [Ev.writeWord 0x41004004 ((0xa500 ||| 2) % 4294967296)] ++ t2 ++
        [Ev.readByte 0x41004010 v1, Ev.readByte 0x41004011 v2] ++ rest ∧
      t1 ≠ [] ∧ t2 ≠ [] ∧ (∀ e ∈ t1, d5xReadyRead e) ∧ (∀ e ∈ t2, d5xReadyRead e)) := by
  constructor
  · exact (c3_command_ready_discipline env1 1 2 initSt).1
      (Except.ok ()) ((d2xCommand env1 1 2 initSt).2) rfl (by simp)
  · exact (c3_command_ready_discipline env1 1 2 initSt).2
      (Except.ok ()) ((d5xCommand env1 1 2 initSt).2) rfl (by simp)

/-- Peel a plain step off a successful `bind` run. -/
theorem StM.bind_plain_ok {α β : Type} {m : StM α} {f : α → StM β} (hm : Plain m)
    {s : St} {b : β} {s2 : St} (h : (m >>= f) s = (Except.ok b, s2)) :
    ∃ a s1 t, f a s1 = (Except.ok b, s2) ∧ s1.trace = s.trace ++ t ∧
      (∀ e ∈ t, plainEv e) ∧ s1.onBufferA = s.onBufferA := by
  rcases StM.bind_cases h with ⟨a, s1, h1, h2⟩ | ⟨e, s1, h1, hre, -⟩
  · obtain ⟨t, ht, hp, hb⟩ := hm s _ _ h1
    exact ⟨a, s1, t, h2, ht, hp, hb⟩
  · exact absurd hre (by simp)

/-- Toggle counting distributes over trace concatenation. -/
theorem countToggle_append (a b : List Ev) :
    countToggle (a ++ b) = countToggle a + countToggle b := by
  simp [countToggle, List.filter_append]

/-- A toggle-free segment counts zero toggles. -/
theorem countToggle_eq_zero {t : List Ev} (h : ∀ e ∈ t, isToggle e = false) :
    countToggle t = 0 := by
  induction t with
  | nil => rfl
  | cons e rest ih =>
    have he := h e (by simp)
    have hr := ih fun e' h' => h e' (List.mem_cons_of_mem _ h')
    simp [countToggle, List.filter_cons, he] at hr ⊢
    exact hr

/-- A plain segment counts zero toggles. -/
theorem countToggle_eq_zero_of_plain {t : List Ev} (h : ∀ e ∈ t, plainEv e) :
    countToggle t = 0 :=
  countToggle_eq_zero fun e he => (h e he).1

/-- A successful D2x `writePage` appends exactly one buffer toggle to the
trace, earlier than the applet launch (`runv`'s `go`), everything before
the toggle being plain; the active-buffer flag ends up flipped. -/
theorem d2xWritePage_shape (g : Geo) (env : Env) (fuel lf page : Nat) :
    ∀ s s2, d2xWritePage g env fuel lf page s = (Except.ok (), s2) →
      ∃ A b B, s2.trace = s.trace ++ A ++ [Ev.toggle b] ++ B ∧
        (∀ e ∈ A, plainEv e) ∧ (∀ e ∈ B, isToggle e = false) ∧
        (∃ e ∈ B, isGo e = true) ∧ s2.onBufferA = !s.onBufferA := by
  intro s s2 h
  unfold d2xWritePage at h
  by_cases hp : g.pages ≤ page
  · rw [if_pos hp] at h
    exact absurd h (by simp [throwE])
  rw [if_neg hp] at h
  obtain ⟨v1, sA, t1, h, ht1, hp1, hb1⟩ :=
    StM.bind_plain_ok (plain_d2xReadReg env 0x04) h
  obtain ⟨-, sB, t2, h, ht2, hp2, hb2⟩ :=
    StM.bind_plain_ok (plain_d2xWriteReg _ _) h
  obtain ⟨sv, sC, t3, h, ht3, hp3, hb3⟩ := StM.bind_plain_ok plain_getSt h
  obtain ⟨-, sD, t4, h, ht4, hp4, hb4⟩ :=
    StM.bind_plain_ok
      (plain_ite _ (plain_d2xErase g env fuel lf _ _) (plain_pure _)) h
  obtain ⟨-, sE, t5, h, ht5, hp5, hb5⟩ :=
    StM.bind_plain_ok (plain_d2xCommand env fuel 0x44) h
  obtain ⟨-, sF, t6, h, ht6, hp6, hb6⟩ :=
    StM.bind_plain_ok (plain_prepareApplet g) h
  obtain ⟨-, sG, t7, h, ht7, hp7, hb7⟩ :=
    StM.bind_plain_ok (plain_wcSetDstAddr _ _) h
  obtain ⟨sv2, sH0, t8, h, ht8, hp8, hb8⟩ := StM.bind_plain_ok plain_getSt h
  obtain ⟨-, sH, t9, h, ht9, hp9, hb9⟩ :=
    StM.bind_plain_ok (plain_wcSetSrcAddr _ _) h
  replace h := StM.bind_det
    (show toggleBuf sH =
      (Except.ok (), { sH with onBufferA := !sH.onBufferA
                               trace := sH.trace ++ [Ev.toggle (!sH.onBufferA)] })
      from rfl) h
  obtain ⟨-, sI, t10, h, ht10, hp10, hb10⟩ :=
    StM.bind_plain_ok (plain_d2xWaitReady env fuel) h
  obtain ⟨tR, hrunv, hgo, hnt⟩ := wcRunv_shape g.user sI
  replace h := StM.bind_det hrunv h
  obtain ⟨-, sK, t11, h, ht11, hp11, hb11⟩ :=
    StM.bind_plain_ok (plain_d2xWriteReg _ _) h
  obtain ⟨tC, htC, hpC, hbC⟩ := plain_d2xCommand env fuel 0x04 _ _ _ h
  refine ⟨t1 ++ t2 ++ t3 ++ t4 ++ t5 ++ t6 ++ t7 ++ t8 ++ t9, !sH.onBufferA,
    t10 ++ tR ++ t11 ++ tC, ?_, ?_, ?_, ?_, ?_⟩
  · rw [htC, ht11, ht10]
    simp only [ht9, ht8, ht7, ht6, ht5, ht4, ht3, ht2, ht1, List.append_assoc]
  · repeat
      refine List.forall_mem_append.mpr ⟨?_, ?_⟩ <;> try assumption
  · refine List.forall_mem_append.mpr ⟨List.forall_mem_append.mpr
      ⟨List.forall_mem_append.mpr ⟨?_, ?_⟩, ?_⟩, ?_⟩
    · exact fun e he => (hp10 e he).1
    · exact hnt
    · exact fun e he => (hp11 e he).1
    · exact fun e he => (hpC e he).1
  · obtain ⟨e, heM, heGo⟩ := hgo
    exact ⟨e, by simp [heM], heGo⟩
  · rw [hbC, hb11, hb10]
    show (!sH.onBufferA) = !s.onBufferA
    rw [hb9, hb8, hb7, hb6, hb5, hb4, hb3, hb2, hb1]

/-- A successful D5x `writePage` appends exactly one buffer toggle to the
trace, earlier than the applet launch, everything before the toggle being
plain; the active-buffer flag ends up flipped. -/
theorem d5xWritePage_shape (g : Geo) (env : Env) (fuel lf page : Nat) :
    ∀ s s2, d5xWritePage g env fuel lf page s = (Except.ok (), s2) →
      ∃ A b B, s2.trace = s.trace ++ A ++ [Ev.toggle b] ++ B ∧
        (∀ e ∈ A, plainEv e) ∧ (∀ e ∈ B, isToggle e = false) ∧
        (∃ e ∈ B, isGo e = true) ∧ s2.onBufferA = !s.onBufferA := by
  intro s s2 h
  unfold d5xWritePage at h
  by_cases hp : g.pages ≤ page
  · rw [if_pos hp] at h
    exact absurd h (by simp [throwE])
  rw [if_neg hp] at h
  obtain ⟨v1, sA, t1, h, ht1, hp1, hb1⟩ :=
    StM.bind_plain_ok (plain_d5xReadRegU16 env 0x00) h
  obtain ⟨-, sB, t2, h, ht2, hp2, hb2⟩ :=
    StM.bind_plain_ok (plain_d5xWriteRegU16 _ _) h
  obtain ⟨sv, sC, t3, h, ht3, hp3, hb3⟩ := StM.bind_plain_ok plain_getSt h
  obtain ⟨-, sD, t4, h, ht4, hp4, hb4⟩ :=
    StM.bind_plain_ok
      (plain_ite _ (plain_d5xErase g env fuel lf _ _) (plain_pure _)) h
  obtain ⟨-, sE, t5, h, ht5, hp5, hb5⟩ :=
    StM.bind_plain_ok (plain_d5xCommand env fuel 0x15) h
  obtain ⟨-, sF, t6, h, ht6, hp6, hb6⟩ :=
    StM.bind_plain_ok (plain_prepareApplet g) h
  obtain ⟨-, sG, t7, h, ht7, hp7, hb7⟩ :=
    StM.bind_plain_ok (plain_wcSetDstAddr _ _) h
  obtain ⟨sv2, sH0, t8, h, ht8, hp8, hb8⟩ := StM.bind_plain_ok plain_getSt h
  obtain ⟨-, sH1, t9, h, ht9, hp9, hb9⟩ :=
    StM.bind_plain_ok (plain_wcSetSrcAddr _ _) h
  obtain ⟨-, sH, t9b, h, ht9b, hp9b, hb9b⟩ :=
    StM.bind_plain_ok (plain_wcSetWords _ _) h
  replace h := StM.bind_det
    (show toggleBuf sH =
      (Except.ok (), { sH with onBufferA := !sH.onBufferA
                               trace := sH.trace ++ [Ev.toggle (!sH.onBufferA)] })
      from rfl) h
  obtain ⟨-, sI, t10, h, ht10, hp10, hb10⟩ :=
    StM.bind_plain_ok (plain_d5xWaitReady env fuel) h
  obtain ⟨tR, hrunv, hgo, hnt⟩ := wcRunv_shape g.user sI
  replace h := StM.bind_det hrunv h
  obtain ⟨-, sK, t11, h, ht11, hp11, hb11⟩ :=
    StM.bind_plain_ok (plain_d5xWriteRegU32 _ _) h
  obtain ⟨tC, htC, hpC, hbC⟩ := plain_d5xCommand env fuel 0x03 _ _ _ h
  refine ⟨t1 ++ t2 ++ t3 ++ t4 ++ t5 ++ t6 ++ t7 ++ t8 ++ t9 ++ t9b, !sH.onBufferA,
    t10 ++ tR ++ t11 ++ tC, ?_, ?_, ?_, ?_, ?_⟩
  · rw [htC, ht11, ht10]
    simp only [ht9b, ht9, ht8, ht7, ht6, ht5, ht4, ht3, ht2, ht1, List.append_assoc]
  · repeat
      refine List.forall_mem_append.mpr ⟨?_, ?_⟩ <;> try assumption
  · refine List.forall_mem_append.mpr ⟨List.forall_mem_append.mpr
      ⟨List.forall_mem_append.mpr ⟨?_, ?_⟩, ?_⟩, ?_⟩
    · exact fun e he => (hp10 e he).1
    · exact hnt
    · exact fun e he => (hp11 e he).1
    · exact fun e he => (hpC e he).1
  · obtain ⟨e, heM, heGo⟩ := hgo
    exact ⟨e, by simp [heM], heGo⟩
  · rw [hbC, hb11, hb10]
    show (!sH.onBufferA) = !s.onBufferA
    rw [hb9b, hb9, hb8, hb7, hb6, hb5, hb4, hb3, hb2, hb1]

/-- Unfolding `d2xWritePages` on the empty list. -/
theorem d2xWritePages_nil (g : Geo) (env : Env) (fuel lf : Nat) :
    d2xWritePages g env fuel lf [] = pure () := rfl

/-- Unfolding `d2xWritePages` on a cons. -/
theorem d2xWritePages_cons (g : Geo) (env : Env) (fuel lf p : Nat) (ps : List Nat) :
    d2xWritePages g env fuel lf (p :: ps) =
      (do
        d2xWritePage g env fuel lf p
        d2xWritePages g env fuel lf ps) := rfl

/-- Unfolding `d5xWritePages` on the empty list. -/
theorem d5xWritePages_nil (g : Geo) (env : Env) (fuel lf : Nat) :
    d5xWritePages g env fuel lf [] = pure () := rfl

/-- Unfolding `d5xWritePages` on a cons. -/
theorem d5xWritePages_cons (g : Geo) (env : Env) (fuel lf p : Nat) (ps : List Nat) :
    d5xWritePages g env fuel lf (p :: ps) =
      (do
        d5xWritePage g env fuel lf p
        d5xWritePages g env fuel lf ps) := rfl

/-- One successful D2x `writePage` adds exactly one toggle and flips the
flag. -/
theorem d2xWritePage_count (g : Geo) (env : Env) (fuel lf page : Nat)
    {s s2 : St} (h : d2xWritePage g env fuel lf page s = (Except.ok (), s2)) :
    countToggle s2.trace = countToggle s.trace + 1 ∧ s2.onBufferA = !s.onBufferA := by
  obtain ⟨A, b, B, htr, hA, hB, -, hflip⟩ := d2xWritePage_shape g env fuel lf page s s2 h
  refine ⟨?_, hflip⟩
  rw [htr, countToggle_append, countToggle_append, countToggle_append,
    countToggle_eq_zero_of_plain hA, countToggle_eq_zero hB]
  simp [countToggle, isToggle]

/-- One successful D5x `writePage` adds exactly one toggle and flips the
flag. -/
theorem d5xWritePage_count (g : Geo) (env : Env) (fuel lf page : Nat)
    {s s2 : St} (h : d5xWritePage g env fuel lf page s = (Except.ok (), s2)) :
    countToggle s2.trace = countToggle s.trace + 1 ∧ s2.onBufferA = !s.onBufferA := by
  obtain ⟨A, b, B, htr, hA, hB, -, hflip⟩ := d5xWritePage_shape g env fuel lf page s s2 h
  refine ⟨?_, hflip⟩
  rw [htr, countToggle_append, countToggle_append, countToggle_append,
    countToggle_eq_zero_of_plain hA, countToggle_eq_zero hB]
  simp [countToggle, isToggle]

/-- After N successful D2x `writePage` calls the toggle count grew by N
and the flag flipped N times. -/
theorem d2xWritePages_count (g : Geo) (env : Env) (fuel lf : Nat) :
    ∀ ps s s2, d2xWritePages g env fuel lf ps s = (Except.ok (), s2) →
      countToggle s2.trace = countToggle s.trace + ps.length ∧
      s2.onBufferA = (if ps.length % 2 = 0 then s.onBufferA else !s.onBufferA) := by
  intro ps
  induction ps with
  | nil =>
    intro s s2 h
    rw [d2xWritePages_nil, StM.run_pure] at h
    injection h with h1 h2
    subst h2
    simp
  | cons p ps ih =>
    intro s s2 h
    simp only [List.length_cons]
    rw [d2xWritePages_cons] at h
    rcases StM.bind_cases h with ⟨a, s1, h1, h2⟩ | ⟨e, s1, h1, hre, -⟩
    · obtain ⟨hc1, hf1⟩ := d2xWritePage_count g env fuel lf p h1
      obtain ⟨hc2, hf2⟩ := ih s1 s2 h2
      refine ⟨by omega, ?_⟩
      rw [hf2, hf1]
      rcases Nat.mod_two_eq_zero_or_one ps.length with hm | hm
      · rw [if_pos hm, if_neg (by omega)]
      · rw [if_neg (by omega), if_pos (by omega)]
        simp
    · exact absurd hre (by simp)

/-- After N successful D5x `writePage` calls the toggle count grew by N
and the flag flipped N times. -/
theorem d5xWritePages_count (g : Geo) (env : Env) (fuel lf : Nat) :
    ∀ ps s s2, d5xWritePages g env fuel lf ps s = (Except.ok (), s2) →
      countToggle s2.trace = countToggle s.trace + ps.length ∧
      s2.onBufferA = (if ps.length % 2 = 0 then s.onBufferA else !s.onBufferA) := by
  intro ps
  induction ps with
  | nil =>
    intro s s2 h
    rw [d5xWritePages_nil, StM.run_pure] at h
    injection h with h1 h2
    subst h2
    simp
  | cons p ps ih =>
    intro s s2 h
    simp only [List.length_cons]
    rw [d5xWritePages_cons] at h
    rcases StM.bind_cases h with ⟨a, s1, h1, h2⟩ | ⟨e, s1, h1, hre, -⟩
    · obtain ⟨hc1, hf1⟩ := d5xWritePage_count g env fuel lf p h1
      obtain ⟨hc2, hf2⟩ := ih s1 s2 h2
      refine ⟨by omega, ?_⟩
      rw [hf2, hf1]
      rcases Nat.mod_two_eq_zero_or_one ps.length with hm | hm
      · rw [if_pos hm, if_neg (by omega)]
      · rw [if_neg (by omega), if_pos (by omega)]
        simp
    · exact absurd hre (by simp)

/-- C5: on both drivers, N consecutive normally-completing `writePage`
calls toggle `onBufferA` exactly N times (the trace gains N toggle
markers, the flag ends flipped iff N is odd), and within each single call
the toggle strictly precedes the applet launch: the call's trace segment
is plain events, then the one toggle, then a toggle-free tail that
contains the `go`. -/
theorem c5_buffer_toggle (g : Geo) (env : Env) (fuel lf : Nat) :
    (∀ ps s s2, d2xWritePages g env fuel lf ps s = (Except.ok (), s2) →
      countToggle s2.trace = countToggle s.trace + ps.length ∧
      s2.onBufferA = (if ps.length % 2 = 0 then s.onBufferA else !s.onBufferA)) ∧
    (∀ page s s2, d2xWritePage g env fuel lf page s = (Except.ok (), s2) →
      ∃ A b B, s2.trace = s.trace ++ A ++ [Ev.toggle b] ++ B ∧
        (∀ e ∈ A, plainEv e) ∧ (∀ e ∈ B, isToggle e = false) ∧
        (∃ e ∈ B, isGo e = true) ∧ s2.onBufferA = !s.onBufferA) ∧
    (∀ ps s s2, d5xWritePages g env fuel lf ps s = (Except.ok (), s2) →
      countToggle s2.trace = countToggle s.trace + ps.length ∧
      s2.onBufferA = (if ps.length % 2 = 0 then s.onBufferA else !s.onBufferA)) ∧
    (∀ page s s2, d5xWritePage g env fuel lf page s = (Except.ok (), s2) →
      ∃ A b B, s2.trace = s.trace ++ A ++ [Ev.toggle b] ++ B ∧
        (∀ e ∈ A, plainEv e) ∧ (∀ e ∈ B, isToggle e = false) ∧
        (∃ e ∈ B, isGo e = true) ∧ s2.onBufferA = !s.onBufferA) :=
  ⟨d2xWritePages_count g env fuel lf, d2xWritePage_shape g env fuel lf,
   d5xWritePages_count g env fuel lf, d5xWritePage_shape g env fuel lf⟩

/-- C5 witness: two consecutive `writePage` calls on each driver complete
against a ready target, add exactly two toggles, and each single call
shows the toggle-before-launch shape. -/
theorem c5_buffer_toggle_app :
    (countToggle ((d2xWritePages geoD2x env1 2 4 [1, 2] initSt).2).trace =
        countToggle initSt.trace + 2 ∧
      ((d2xWritePages geoD2x env1 2 4 [1, 2] initSt).2).onBufferA =
        (if (2 : Nat) % 2 = 0 then initSt.onBufferA else !initSt.onBufferA)) ∧
    (∃ A b B, ((d2xWritePage geoD2x env1 2 4 1 initSt).2).trace =
        initSt.trace ++ A ++ [Ev.toggle b] ++ B ∧
      (∀ e ∈ A, plainEv e) ∧ (∀ e ∈ B, isToggle e = false) ∧
      (∃ e ∈ B, isGo e = true) ∧
      ((d2xWritePage geoD2x env1 2 4 1 initSt).2).onBufferA = !initSt.onBufferA) ∧
    (countToggle ((d5xWritePages geoD5x env1 2 4 [1, 2] initSt).2).trace =
        countToggle initSt.trace + 2 ∧
      ((d5xWritePages geoD5x env1 2 4 [1, 2] initSt).2).onBufferA =
        (if (2 : Nat) % 2 = 0 then initSt.onBufferA else !initSt.onBufferA)) ∧
    (∃ A b B, ((d5xWritePage geoD5x env1 2 4 1 initSt).2).trace =
        initSt.trace ++ A ++ [Ev.toggle b] ++ B ∧
      (∀ e ∈ A, plainEv e) ∧ (∀ e ∈ B, isToggle e = false) ∧
      (∃ e ∈ B, isGo e = true) ∧
      ((d5xWritePage geoD5x env1 2 4 1 initSt).2).onBufferA = !initSt.onBufferA) := by
  refine ⟨?_, ?_, ?_, ?_⟩
  · exact (c5_buffer_toggle geoD2x env1 2 4).1 [1, 2] initSt
      ((d2xWritePages geoD2x env1 2 4 [1, 2] initSt).2) rfl
  · exact (c5_buffer_toggle geoD2x env1 2 4).2.1 1 initSt
      ((d2xWritePage geoD2x env1 2 4 1 initSt).2) rfl
  · exact (c5_buffer_toggle geoD5x env1 2 4).2.2.1 [1, 2] initSt
      ((d5xWritePages geoD5x env1 2 4 [1, 2] initSt).2) rfl
  · exact (c5_buffer_toggle geoD5x env1 2 4).2.2.2 1 initSt
      ((d5xWritePage geoD5x env1 2 4 1 initSt).2) rfl

/-! ### Option-cell preservation (for the dirty-flag invariant) -/

/-- `pure` preserves the option cells. -/
theorem opts_pure {α : Type} (a : α) : OptsPres (pure a : StM α) := by
  intro s r s1 h
  injection h with h1 h2
  subst h2
  rfl

/-- `throwE` preserves the option cells. -/
theorem opts_throwE {α : Type} (e : Err) : OptsPres (throwE e : StM α) := by
  intro s r s1 h
  injection h with h1 h2
  subst h2
  rfl

/-- `getSt` preserves the option cells. -/
theorem opts_getSt : OptsPres getSt := by
  intro s r s1 h
  injection h with h1 h2
  subst h2
  rfl

/-- `setInstalled` preserves the option cells. -/
theorem opts_setInstalled : OptsPres setInstalled := by
  intro s r s1 h
  injection h with h1 h2
  subst h2
  rfl

/-- `setPrepared` preserves the option cells. -/
theorem opts_setPrepared : OptsPres setPrepared := by
  intro s r s1 h
  injection h with h1 h2
  subst h2
  rfl

/-- `toggleBuf` preserves the option cells. -/
theorem opts_toggleBuf : OptsPres toggleBuf := by
  intro s r s1 h
  injection h with h1 h2
  subst h2
  rfl

/-- `emit` preserves the option cells. -/
theorem opts_emit (e : Ev) : OptsPres (emit e) := by
  intro s r s1 h
  injection h with h1 h2
  subst h2
  rfl

/-- Byte reads preserve the option cells. -/
theorem opts_readByte (env : Env) (addr : Nat) : OptsPres (sambaReadByteM env addr) := by
  intro s r s1 h
  injection h with h1 h2
  subst h2
  rfl

/-- Word reads preserve the option cells. -/
theorem opts_readWord (env : Env) (addr : Nat) : OptsPres (sambaReadWordM env addr) := by
  intro s r s1 h
  injection h with h1 h2
  subst h2
  rfl

/-- Block reads preserve the option cells. -/
theorem opts_blockRead (env : Env) (addr size : Nat) :
    OptsPres (sambaBlockReadM env addr size) := by
  intro s r s1 h
  injection h with h1 h2
  subst h2
  rfl

/-- `bind` preserves the option cells if both parts do. -/
theorem opts_bind {α β : Type} {m : StM α} {f : α → StM β}
    (hm : OptsPres m) (hf : ∀ a, OptsPres (f a)) : OptsPres (m >>= f) := by
  intro s r s2 h
  rw [StM.run_bind] at h
  rcases hms : m s with ⟨r1, s1⟩
  rw [hms] at h
  cases r1 with
  | ok a => exact (hf a s1 _ _ h).trans (hm s _ _ hms)
  | error e =>
    injection h with h1 h2
    subst h2
    exact hm s _ _ hms

/-- An `if` preserves the option cells if both branches do. -/
theorem opts_ite {α : Type} (c : Prop) [Decidable c] {m1 m2 : StM α}
    (h1 : OptsPres m1) (h2 : OptsPres m2) : OptsPres (if c then m1 else m2) := by
  by_cases hc : c
  · simpa [hc] using h1
  · simpa [hc] using h2

/-- Every plain-building-block driver operation preserves the option
cells; these cover the pieces of `writePage` and `writeOptions`. -/
theorem opts_d2xReadReg (env : Env) (reg : Nat) : OptsPres (d2xReadReg env reg) :=
  opts_readWord env _

/-- `writeReg` preserves the option cells. -/
theorem opts_d2xWriteReg (reg value : Nat) : OptsPres (d2xWriteReg reg value) :=
  opts_emit _

/-- D5x 16-bit reads preserve the option cells. -/
theorem opts_d5xReadRegU16 (env : Env) (reg : Nat) : OptsPres (d5xReadRegU16 env reg) := by
  unfold d5xReadRegU16
  exact opts_bind (opts_readByte env _) fun _ =>
    opts_bind (opts_readByte env _) fun _ => opts_pure _

/-- D5x 16-bit writes preserve the option cells. -/
theorem opts_d5xWriteRegU16 (reg value : Nat) : OptsPres (d5xWriteRegU16 reg value) := by
  unfold d5xWriteRegU16
  exact opts_bind (opts_emit _) fun _ => opts_emit _

/-- D5x 32-bit reads preserve the option cells. -/
theorem opts_d5xReadRegU32 (env : Env) (reg : Nat) : OptsPres (d5xReadRegU32 env reg) :=
  opts_readWord env _

/-- D5x 32-bit writes preserve the option cells. -/
theorem opts_d5xWriteRegU32 (reg value : Nat) : OptsPres (d5xWriteRegU32 reg value) :=
  opts_emit _

/-- The ready polls preserve the option cells. -/
theorem opts_d2xWaitReady (env : Env) (fuel : Nat) : OptsPres (d2xWaitReady env fuel) := by
  induction fuel with
  | zero => rw [d2xWaitReady_zero]; exact opts_throwE _
  | succ fuel ih =>
    rw [d2xWaitReady_succ]
    exact opts_bind (opts_d2xReadReg env _) fun v => opts_ite _ ih (opts_pure _)

/-- The D5x ready poll preserves the option cells. -/
theorem opts_d5xWaitReady (env : Env) (fuel : Nat) : OptsPres (d5xWaitReady env fuel) := by
  induction fuel with
  | zero => rw [d5xWaitReady_zero]; exact opts_throwE _
  | succ fuel ih =>
    rw [d5xWaitReady_succ]
    exact opts_bind (opts_d5xReadRegU16 env _) fun v => opts_ite _ ih (opts_pure _)

/-- The command handshakes preserve the option cells. -/
theorem opts_d2xCommand (env : Env) (fuel cmd : Nat) : OptsPres (d2xCommand env fuel cmd) := by
  unfold d2xCommand
  exact opts_bind (opts_d2xWaitReady env fuel) fun _ =>
    opts_bind (opts_d2xWriteReg _ _) fun _ =>
      opts_bind (opts_d2xWaitReady env fuel) fun _ =>
        opts_bind (opts_d2xReadReg env _) fun v =>
          opts_ite _ (opts_bind (opts_d2xWriteReg _ _) fun _ => opts_throwE _)
            (opts_pure _)

/-- The D5x command handshake preserves the option cells. -/
theorem opts_d5xCommand (env : Env) (fuel cmd : Nat) : OptsPres (d5xCommand env fuel cmd) := by
  unfold d5xCommand
  exact opts_bind (opts_d5xWaitReady env fuel) fun _ =>
    opts_bind (opts_d5xWriteRegU32 _ _) fun _ =>
      opts_bind (opts_d5xWaitReady env fuel) fun _ =>
        opts_bind (opts_d5xReadRegU16 env _) fun v =>
          opts_ite _ (opts_bind (opts_d5xWriteRegU16 _ _) fun _ => opts_throwE _)
            (opts_pure _)

/-- The erase loops preserve the option cells. -/
theorem opts_d2xEraseLoop (env : Env) (fuel es bound : Nat) (lf : Nat) :
    ∀ n, OptsPres (d2xEraseLoop env fuel es bound n lf) := by
  induction lf with
  | zero => intro n; rw [d2xEraseLoop_zero]; exact opts_throwE _
  | succ lf ih =>
    intro n
    rw [d2xEraseLoop_succ]
    exact opts_ite _
      (opts_bind (opts_d2xWaitReady env fuel) fun _ =>
        opts_bind (opts_d2xReadReg env _) fun _ =>
          opts_bind (opts_d2xWriteReg _ _) fun _ =>
            opts_bind (opts_d2xWriteReg _ _) fun _ =>
              opts_bind (opts_d2xCommand env fuel _) fun _ => ih (n + 1))
      (opts_pure _)

/-- The D5x erase loop preserves the option cells. -/
theorem opts_d5xEraseLoop (env : Env) (fuel es bound : Nat) (lf : Nat) :
    ∀ n, OptsPres (d5xEraseLoop env fuel es bound n lf) := by
  induction lf with
  | zero => intro n; rw [d5xEraseLoop_zero]; exact opts_throwE _
  | succ lf ih =>
    intro n
    rw [d5xEraseLoop_succ]
    exact opts_ite _
      (opts_bind (opts_d5xWriteRegU32 _ _) fun _ =>
        opts_bind (opts_d5xCommand env fuel _) fun _ => ih (n + 1))
      (opts_pure _)

/-- `erase` preserves the option cells. -/
theorem opts_d2xErase (g : Geo) (env : Env) (fuel lf offset size : Nat) :
    OptsPres (d2xErase g env fuel lf offset size) := by
  unfold d2xErase
  exact opts_ite _ (opts_throwE _)
    (opts_ite _ (opts_throwE _) (opts_d2xEraseLoop env fuel _ _ lf _))

/-- D5x `erase` preserves the option cells. -/
theorem opts_d5xErase (g : Geo) (env : Env) (fuel lf offset size : Nat) :
    OptsPres (d5xErase g env fuel lf offset size) := by
  unfold d5xErase
  exact opts_ite _ (opts_throwE _)
    (opts_ite _ (opts_throwE _) (opts_d5xEraseLoop env fuel _ _ lf _))

/-- The applet operations preserve the option cells. -/
theorem opts_checkInstall (user : Nat) : OptsPres (checkInstall user) := by
  unfold checkInstall
  exact opts_bind opts_getSt fun s =>
    opts_ite _ (opts_pure _) (opts_bind (opts_emit _) fun _ => opts_setInstalled)

/-- `setDstAddr` preserves the option cells. -/
theorem opts_wcSetDstAddr (user v : Nat) : OptsPres (wcSetDstAddr user v) := by
  unfold wcSetDstAddr
  exact opts_bind (opts_checkInstall user) fun _ => opts_emit _

/-- `setSrcAddr` preserves the option cells. -/
theorem opts_wcSetSrcAddr (user v : Nat) : OptsPres (wcSetSrcAddr user v) := by
  unfold wcSetSrcAddr
  exact opts_bind (opts_checkInstall user) fun _ => opts_emit _

/-- `setWords` preserves the option cells. -/
theorem opts_wcSetWords (user v : Nat) : OptsPres (wcSetWords user v) := by
  unfold wcSetWords
  exact opts_bind (opts_checkInstall user) fun _ => opts_emit _

/-- `setStack` preserves the option cells. -/
theorem opts_wcSetStack (user v : Nat) : OptsPres (wcSetStack user v) := by
  unfold wcSetStack
  exact opts_bind (opts_checkInstall user) fun _ => opts_emit _

/-- `runv` preserves the option cells. -/
theorem opts_wcRunv (user : Nat) : OptsPres (wcRunv user) := by
  unfold wcRunv
  exact opts_bind (opts_checkInstall user) fun _ =>
    opts_bind (opts_emit _) fun _ => opts_emit _

/-- `prepareApplet` preserves the option cells. -/
theorem opts_prepareApplet (g : Geo) : OptsPres (prepareApplet g) := by
  unfold prepareApplet
  exact opts_bind opts_getSt fun s =>
    opts_ite _ (opts_pure _)
      (opts_bind (opts_wcSetWords _ _) fun _ =>
        opts_bind (opts_wcSetStack _ _) fun _ => opts_setPrepared)

/-- `loadBuffer` preserves the option cells. -/
theorem opts_loadBuffer (g : Geo) (data : Nat → Nat) (offset size : Nat) :
    OptsPres (loadBuffer g data offset size) := by
  unfold loadBuffer
  exact opts_bind opts_getSt fun s => opts_emit _

/-- `writePage` preserves the option cells, on both drivers. -/
theorem opts_d2xWritePage (g : Geo) (env : Env) (fuel lf page : Nat) :
    OptsPres (d2xWritePage g env fuel lf page) := by
  unfold d2xWritePage
  refine opts_ite _ (opts_throwE _) ?_
  exact opts_bind (opts_d2xReadReg env _) fun v =>
    opts_bind (opts_d2xWriteReg _ _) fun _ =>
      opts_bind opts_getSt fun s1 =>
        opts_bind (opts_ite _ (opts_d2xErase g env fuel lf _ _) (opts_pure _)) fun _ =>
          opts_bind (opts_d2xCommand env fuel _) fun _ =>
            opts_bind (opts_prepareApplet g) fun _ =>
              opts_bind (opts_wcSetDstAddr _ _) fun _ =>
                opts_bind opts_getSt fun s2 =>
                  opts_bind (opts_wcSetSrcAddr _ _) fun _ =>
                    opts_bind opts_toggleBuf fun _ =>
                      opts_bind (opts_d2xWaitReady env fuel) fun _ =>
                        opts_bind (opts_wcRunv _) fun _ =>
                          opts_bind (opts_d2xWriteReg _ _) fun _ =>
                            opts_d2xCommand env fuel _

/-- D5x `writePage` preserves the option cells. -/
theorem opts_d5xWritePage (g : Geo) (env : Env) (fuel lf page : Nat) :
    OptsPres (d5xWritePage g env fuel lf page) := by
  unfold d5xWritePage
  refine opts_ite _ (opts_throwE _) ?_
  exact opts_bind (opts_d5xReadRegU16 env _) fun v =>
    opts_bind (opts_d5xWriteRegU16 _ _) fun _ =>
      opts_bind opts_getSt fun s1 =>
        opts_bind (opts_ite _ (opts_d5xErase g env fuel lf _ _) (opts_pure _)) fun _ =>
          opts_bind (opts_d5xCommand env fuel _) fun _ =>
            opts_bind (opts_prepareApplet g) fun _ =>
              opts_bind (opts_wcSetDstAddr _ _) fun _ =>
                opts_bind opts_getSt fun s2 =>
                  opts_bind (opts_wcSetSrcAddr _ _) fun _ =>
                    opts_bind (opts_wcSetWords _ _) fun _ =>
                      opts_bind opts_toggleBuf fun _ =>
                        opts_bind (opts_d5xWaitReady env fuel) fun _ =>
                          opts_bind (opts_wcRunv _) fun _ =>
                            opts_bind (opts_d5xWriteRegU32 _ _) fun _ =>
                              opts_d5xCommand env fuel _

/-- The option getters preserve the option cells. -/
theorem opts_d2xGetBod (env : Env) : OptsPres (d2xGetBod env) := by
  unfold d2xGetBod
  exact opts_bind (opts_readByte env _) fun _ => opts_pure _

/-- `getBor` preserves the option cells. -/
theorem opts_d2xGetBor (env : Env) : OptsPres (d2xGetBor env) := by
  unfold d2xGetBor
  exact opts_bind (opts_readByte env _) fun _ => opts_pure _

/-- D2x `getSecurity` preserves the option cells. -/
theorem opts_d2xGetSecurity (env : Env) : OptsPres (d2xGetSecurity env) := by
  unfold d2xGetSecurity
  exact opts_bind (opts_readWord env _) fun _ => opts_pure _

/-- D5x `getBod` preserves the option cells. -/
theorem opts_d5xGetBod (env : Env) : OptsPres (d5xGetBod env) := by
  unfold d5xGetBod
  exact opts_bind (opts_readByte env _) fun _ => opts_pure _

/-- D5x `getBor` preserves the option cells. -/
theorem opts_d5xGetBor (env : Env) : OptsPres (d5xGetBor env) := by
  unfold d5xGetBor
  exact opts_bind (opts_readByte env _) fun _ => opts_pure _

/-- D5x `getSecurity` preserves the option cells. -/
theorem opts_d5xGetSecurity : OptsPres d5xGetSecurity := opts_pure _

/-- The user row reads preserve the option cells. -/
theorem opts_d2xReadUserRow (g : Geo) (env : Env) : OptsPres (d2xReadUserRow g env) :=
  opts_blockRead env _ _

/-- The D5x user page read preserves the option cells. -/
theorem opts_d5xReadUserPage (g : Geo) (env : Env) : OptsPres (d5xReadUserPage g env) :=
  opts_blockRead env _ _

/-- The lock-region read loop preserves the option cells. -/
theorem opts_lockRegionsLoop (env : Env) :
    ∀ count region addr lockBits, OptsPres (lockRegionsLoop env region count addr lockBits) := by
  intro count
  induction count with
  | zero =>
    intro region addr lockBits
    exact opts_pure []
  | succ c ih =>
    intro region addr lockBits
    show OptsPres (lockRegionsLoop env region (c + 1) addr lockBits)
    unfold lockRegionsLoop
    refine opts_ite _ ?_ ?_
    · exact opts_bind (opts_readByte env _) fun b =>
        opts_bind (ih _ _ _) fun rest => opts_pure _
    · exact opts_bind (ih _ _ _) fun rest => opts_pure _

/-- `getLockRegions` preserves the option cells. -/
theorem opts_d2xGetLockRegions (g : Geo) (env : Env) :
    OptsPres (d2xGetLockRegions g env) := opts_lockRegionsLoop env _ _ _ _

/-- D5x `getLockRegions` preserves the option cells. -/
theorem opts_d5xGetLockRegions (g : Geo) (env : Env) :
    OptsPres (d5xGetLockRegions g env) := opts_lockRegionsLoop env _ _ _ _

/-- Unfolding the D2x user-row write loop. -/
theorem d2xUserRowLoop_zero (g : Geo) (env : Env) (fuel : Nat) (up : Nat → Nat)
    (offset : Nat) : d2xUserRowLoop g env fuel up offset 0 = throwE Err.timeout := rfl

/-- Unfolding the D2x user-row write loop at positive fuel. -/
theorem d2xUserRowLoop_succ (g : Geo) (env : Env) (fuel : Nat) (up : Nat → Nat)
    (offset lf : Nat) :
    d2xUserRowLoop g env fuel up offset (lf + 1) =
      (do
        if offset < g.size * 4 then
          loadBuffer g up offset g.size
          d2xCommand env fuel 0x44
          prepareApplet g
          wcSetDstAddr g.user (0x804000 + offset)
          let s ← getSt
          wcSetSrcAddr g.user (activeBuffer g s.onBufferA)
          toggleBuf
          d2xWaitReady env fuel
          wcRunv g.user
          d2xWriteReg 0x1c ((0x804000 + offset) / 2)
          d2xCommand env fuel 0x06
          d2xUserRowLoop g env fuel up (offset + g.size) lf
        else pure ()) := rfl

/-- Unfolding the D5x user-page write loop. -/
theorem d5xUserPageLoop_zero (g : Geo) (env : Env) (fuel : Nat) (up : Nat → Nat)
    (offset : Nat) : d5xUserPageLoop g env fuel up offset 0 = throwE Err.timeout := rfl

/-- Unfolding the D5x user-page write loop at positive fuel. -/
theorem d5xUserPageLoop_succ (g : Geo) (env : Env) (fuel : Nat) (up : Nat → Nat)
    (offset lf : Nat) :
    d5xUserPageLoop g env fuel up offset (lf + 1) =
      (do
        if offset < g.size then
          loadBuffer g up offset 16
          d5xCommand env fuel 0x15
          prepareApplet g
          wcSetDstAddr g.user (0x804000 + offset)
          let s ← getSt
          wcSetSrcAddr g.user (activeBuffer g s.onBufferA)
          wcSetWords g.user 4
          toggleBuf
          d5xWaitReady env fuel
          wcRunv g.user
          d5xWriteRegU32 0x14 (0x804000 + offset)
          d5xCommand env fuel 0x04
          d5xUserPageLoop g env fuel up (offset + g.size) lf
        else pure ()) := rfl

/-- The user-row write loops preserve the option cells. -/
theorem opts_d2xUserRowLoop (g : Geo) (env : Env) (fuel : Nat) (up : Nat → Nat)
    (lf : Nat) : ∀ offset, OptsPres (d2xUserRowLoop g env fuel up offset lf) := by
  induction lf with
  | zero => intro offset; rw [d2xUserRowLoop_zero]; exact opts_throwE _
  | succ lf ih =>
    intro offset
    rw [d2xUserRowLoop_succ]
    refine opts_ite _ ?_ (opts_pure _)
    exact opts_bind (opts_loadBuffer g up _ _) fun _ =>
      opts_bind (opts_d2xCommand env fuel _) fun _ =>
        opts_bind (opts_prepareApplet g) fun _ =>
          opts_bind (opts_wcSetDstAddr _ _) fun _ =>
            opts_bind opts_getSt fun s =>
              opts_bind (opts_wcSetSrcAddr _ _) fun _ =>
                opts_bind opts_toggleBuf fun _ =>
                  opts_bind (opts_d2xWaitReady env fuel) fun _ =>
                    opts_bind (opts_wcRunv _) fun _ =>
                      opts_bind (opts_d2xWriteReg _ _) fun _ =>
                        opts_bind (opts_d2xCommand env fuel _) fun _ =>
                          ih (offset + g.size)

/-- The D5x user-page write loop preserves the option cells. -/
theorem opts_d5xUserPageLoop (g : Geo) (env : Env) (fuel : Nat) (up : Nat → Nat)
    (lf : Nat) : ∀ offset, OptsPres (d5xUserPageLoop g env fuel up offset lf) := by
  induction lf with
  | zero => intro offset; rw [d5xUserPageLoop_zero]; exact opts_throwE _
  | succ lf ih =>
    intro offset
    rw [d5xUserPageLoop_succ]
    refine opts_ite _ ?_ (opts_pure _)
    exact opts_bind (opts_loadBuffer g up _ _) fun _ =>
      opts_bind (opts_d5xCommand env fuel _) fun _ =>
        opts_bind (opts_prepareApplet g) fun _ =>
          opts_bind (opts_wcSetDstAddr _ _) fun _ =>
            opts_bind opts_getSt fun s =>
              opts_bind (opts_wcSetSrcAddr _ _) fun _ =>
                opts_bind (opts_wcSetWords _ _) fun _ =>
                  opts_bind opts_toggleBuf fun _ =>
                    opts_bind (opts_d5xWaitReady env fuel) fun _ =>
                      opts_bind (opts_wcRunv _) fun _ =>
                        opts_bind (opts_d5xWriteRegU32 _ _) fun _ =>
                          opts_bind (opts_d5xCommand env fuel _) fun _ =>
                            ih (offset + g.size)

/-- The option sections of `writeOptions` preserve the option cells. -/
theorem opts_d2xBorStep (g : Geo) (env : Env) (bor : FlashOption Bool)
    (ur : Nat → Nat) : OptsPres (d2xBorStep g env bor ur) := by
  unfold d2xBorStep
  refine opts_ite _ ?_ (opts_pure _)
  exact opts_bind (opts_d2xGetBor env) fun cur =>
    opts_ite _
      (opts_bind (opts_d2xReadUserRow g env) fun up =>
        opts_ite _ (opts_pure _) (opts_pure _))
      (opts_pure _)

/-- The D2x BOD section preserves the option cells. -/
theorem opts_d2xBodStep (g : Geo) (env : Env) (bod : FlashOption Bool)
    (ur : Nat → Nat) : OptsPres (d2xBodStep g env bod ur) := by
  unfold d2xBodStep
  refine opts_ite _ ?_ (opts_pure _)
  exact opts_bind (opts_d2xGetBod env) fun cur =>
    opts_ite _
      (opts_bind (opts_d2xReadUserRow g env) fun up =>
        opts_ite _ (opts_pure _) (opts_pure _))
      (opts_pure _)

/-- The D2x lock-region section preserves the option cells. -/
theorem opts_d2xRegionsStep (g : Geo) (env : Env) (regions : FlashOption (List Bool))
    (ur : Nat → Nat) : OptsPres (d2xRegionsStep g env regions ur) := by
  unfold d2xRegionsStep
  refine opts_ite _ ?_ (opts_pure _)
  exact opts_bind (opts_d2xGetLockRegions g env) fun current =>
    opts_ite _
      (opts_bind (opts_d2xReadUserRow g env) fun up => opts_pure _)
      (opts_pure _)

/-- The D5x BOR section preserves the option cells. -/
theorem opts_d5xBorStep (g : Geo) (env : Env) (bor : FlashOption Bool)
    (up0 : Nat → Nat) : OptsPres (d5xBorStep g env bor up0) := by
  unfold d5xBorStep
  refine opts_ite _ ?_ (opts_pure _)
  exact opts_bind (opts_d5xGetBor env) fun cur =>
    opts_ite _
      (opts_bind (opts_d5xReadUserPage g env) fun up =>
        opts_ite _ (opts_pure _) (opts_pure _))
      (opts_pure _)

/-- The D5x BOD section preserves the option cells. -/
theorem opts_d5xBodStep (g : Geo) (env : Env) (bod : FlashOption Bool)
    (up0 : Nat → Nat) : OptsPres (d5xBodStep g env bod up0) := by
  unfold d5xBodStep
  refine opts_ite _ ?_ (opts_pure _)
  exact opts_bind (opts_d5xGetBod env) fun cur =>
    opts_ite _
      (opts_bind (opts_d5xReadUserPage g env) fun up =>
        opts_ite _ (opts_pure _) (opts_pure _))
      (opts_pure _)

/-- The D5x lock-region section preserves the option cells. -/
theorem opts_d5xRegionsStep (g : Geo) (env : Env) (regions : FlashOption (List Bool))
    (up0 : Nat → Nat) : OptsPres (d5xRegionsStep g env regions up0) := by
  unfold d5xRegionsStep
  refine opts_ite _ ?_ (opts_pure _)
  exact opts_bind (opts_d5xGetLockRegions g env) fun current =>
    opts_ite _
      (opts_bind (opts_d5xReadUserPage g env) fun up => opts_pure _)
      (opts_pure _)

/-- `writeOptions` never mutates the option cells (it only reads them), on
either driver. -/
theorem opts_d2xWriteOptions (g : Geo) (env : Env) (fuel lf : Nat) :
    OptsPres (d2xWriteOptions g env fuel lf) := by
  unfold d2xWriteOptions
  exact opts_bind opts_getSt fun s0 =>
    opts_bind (opts_d2xBorStep g env _ _) fun ur1 =>
      opts_bind (opts_d2xBodStep g env _ _) fun ur2 =>
        opts_bind (opts_d2xRegionsStep g env _ _) fun ur3 =>
          opts_bind (opts_d2xReadReg env _) fun v =>
            opts_bind (opts_d2xWriteReg _ _) fun _ =>
              opts_bind (opts_d2xWriteReg _ _) fun _ =>
                opts_bind (opts_d2xCommand env fuel _) fun _ =>
                  opts_bind (opts_d2xUserRowLoop g env fuel ur3 lf 0) fun _ =>
                    opts_ite _
                      (opts_bind (opts_d2xGetSecurity env) fun cur =>
                        opts_ite _ (opts_d2xCommand env fuel _) (opts_pure _))
                      (opts_pure _)

/-- D5x `writeOptions` never mutates the option cells. -/
theorem opts_d5xWriteOptions (g : Geo) (env : Env) (fuel lf : Nat) :
    OptsPres (d5xWriteOptions g env fuel lf) := by
  unfold d5xWriteOptions
  exact opts_bind opts_getSt fun s0 =>
    opts_bind (opts_d5xBorStep g env _ _) fun up1 =>
      opts_bind (opts_d5xBodStep g env _ _) fun up2 =>
        opts_bind (opts_d5xRegionsStep g env _ _) fun up3 =>
          opts_bind (opts_d5xReadRegU16 env _) fun v =>
            opts_bind (opts_d5xWriteRegU16 _ _) fun _ =>
              opts_bind (opts_d5xWriteRegU32 _ _) fun _ =>
                opts_bind (opts_d5xCommand env fuel _) fun _ =>
                  opts_bind (opts_d5xUserPageLoop g env fuel up3 lf 0) fun _ =>
                    opts_ite _
                      (opts_bind opts_d5xGetSecurity fun cur =>
                        opts_ite _ (opts_d5xCommand env fuel _) (opts_pure _))
                      (opts_pure _)

/-- One session operation never clears a dirty flag: setters only set, and
the write/flush operations never touch the option cells. -/
theorem applyOp_dirty_mono (g : Geo) (env : Env) (fuel lf : Nat) (op : FlashOp)
    (s : St) :
    (s.bod.dirty = true → (applyOp g env fuel lf op s).bod.dirty = true) ∧
    (s.bor.dirty = true → (applyOp g env fuel lf op s).bor.dirty = true) ∧
    (s.security.dirty = true → (applyOp g env fuel lf op s).security.dirty = true) ∧
    (s.regions.dirty = true → (applyOp g env fuel lf op s).regions.dirty = true) := by
  cases op with
  | opSetBod b => simp [applyOp, setBodSt, FlashOption.set]
  | opSetBor b => simp [applyOp, setBorSt, FlashOption.set]
  | opSetSecurity => simp [applyOp, setSecuritySt, FlashOption.set]
  | opSetLockRegions rs =>
    by_cases hl : g.lockRegions < rs.length
    · simp [applyOp, setLockRegionsSt, hl]
    · simp [applyOp, setLockRegionsSt, hl, FlashOption.set]
  | opWriteOptionsD2x =>
    have h := opts_d2xWriteOptions g env fuel lf s
      (d2xWriteOptions g env fuel lf s).1 (d2xWriteOptions g env fuel lf s).2 rfl
    have hb : ((d2xWriteOptions g env fuel lf s).2).bod = s.bod := congrArg Prod.fst h
    have hr : ((d2xWriteOptions g env fuel lf s).2).bor = s.bor :=
      congrArg (fun p => p.2.1) h
    have hs : ((d2xWriteOptions g env fuel lf s).2).security = s.security :=
      congrArg (fun p => p.2.2.1) h
    have hg : ((d2xWriteOptions g env fuel lf s).2).regions = s.regions :=
      congrArg (fun p => p.2.2.2) h
    exact ⟨fun hd => by simpa [applyOp, hb] using hd,
      fun hd => by simpa [applyOp, hr] using hd,
      fun hd => by simpa [applyOp, hs] using hd,
      fun hd => by simpa [applyOp, hg] using hd⟩
  | opWriteOptionsD5x =>
    have h := opts_d5xWriteOptions g env fuel lf s
      (d5xWriteOptions g env fuel lf s).1 (d5xWriteOptions g env fuel lf s).2 rfl
    have hb : ((d5xWriteOptions g env fuel lf s).2).bod = s.bod := congrArg Prod.fst h
    have hr : ((d5xWriteOptions g env fuel lf s).2).bor = s.bor :=
      congrArg (fun p => p.2.1) h
    have hs : ((d5xWriteOptions g env fuel lf s).2).security = s.security :=
      congrArg (fun p => p.2.2.1) h
    have hg : ((d5xWriteOptions g env fuel lf s).2).regions = s.regions :=
      congrArg (fun p => p.2.2.2) h
    exact ⟨fun hd => by simpa [applyOp, hb] using hd,
      fun hd => by simpa [applyOp, hr] using hd,
      fun hd => by simpa [applyOp, hs] using hd,
      fun hd => by simpa [applyOp, hg] using hd⟩
  | opWritePageD2x p =>
    have h := opts_d2xWritePage g env fuel lf p s
      (d2xWritePage g env fuel lf p s).1 (d2xWritePage g env fuel lf p s).2 rfl
    have hb : ((d2xWritePage g env fuel lf p s).2).bod = s.bod := congrArg Prod.fst h
    have hr : ((d2xWritePage g env fuel lf p s).2).bor = s.bor :=
      congrArg (fun p => p.2.1) h
    have hs : ((d2xWritePage g env fuel lf p s).2).security = s.security :=
      congrArg (fun p => p.2.2.1) h
    have hg : ((d2xWritePage g env fuel lf p s).2).regions = s.regions :=
      congrArg (fun p => p.2.2.2) h
    exact ⟨fun hd => by simpa [applyOp, hb] using hd,
      fun hd => by simpa [applyOp, hr] using hd,
      fun hd => by simpa [applyOp, hs] using hd,
      fun hd => by simpa [applyOp, hg] using hd⟩
  | opWritePageD5x p =>
    have h := opts_d5xWritePage g env fuel lf p s
      (d5xWritePage g env fuel lf p s).1 (d5xWritePage g env fuel lf p s).2 rfl
    have hb : ((d5xWritePage g env fuel lf p s).2).bod = s.bod := congrArg Prod.fst h
    have hr : ((d5xWritePage g env fuel lf p s).2).bor = s.bor :=
      congrArg (fun p => p.2.1) h
    have hs : ((d5xWritePage g env fuel lf p s).2).security = s.security :=
      congrArg (fun p => p.2.2.1) h
    have hg : ((d5xWritePage g env fuel lf p s).2).regions = s.regions :=
      congrArg (fun p => p.2.2.2) h
    exact ⟨fun hd => by simpa [applyOp, hb] using hd,
      fun hd => by simpa [applyOp, hr] using hd,
      fun hd => by simpa [applyOp, hs] using hd,
      fun hd => by simpa [applyOp, hg] using hd⟩

/-- C10: over any session — any sequence of option setters, `writePage`
and `writeOptions` calls, on either driver — a dirty flag, once set, stays
set: no operation resets it, so every later `writeOptions` still sees the
option as dirty. -/
theorem c10_dirty_persistence (g : Geo) (env : Env) (fuel lf : Nat) :
    ∀ ops s,
      (s.bod.dirty = true → (applyOps g env fuel lf ops s).bod.dirty = true) ∧
      (s.bor.dirty = true → (applyOps g env fuel lf ops s).bor.dirty = true) ∧
      (s.security.dirty = true →
        (applyOps g env fuel lf ops s).security.dirty = true) ∧
      (s.regions.dirty = true → (applyOps g env fuel lf ops s).regions.dirty = true) := by
  intro ops
  induction ops with
  | nil => intro s; exact ⟨id, id, id, id⟩
  | cons op ops ih =>
    intro s
    have hm := applyOp_dirty_mono g env fuel lf op s
    have hi := ih (applyOp g env fuel lf op s)
    exact ⟨fun h => hi.1 (hm.1 h), fun h => hi.2.1 (hm.2.1 h),
      fun h => hi.2.2.1 (hm.2.2.1 h), fun h => hi.2.2.2 (hm.2.2.2 h)⟩

/-- C10 witness: in a session that dirtied all four options and then ran
`writeOptions` and `writePage` on both drivers, every dirty flag is still
set at the end. -/
theorem c10_dirty_persistence_app :
    ((applyOps geoD2x env1 2 6
        [FlashOp.opWriteOptionsD2x, FlashOp.opWritePageD2x 1,
         FlashOp.opWriteOptionsD5x, FlashOp.opWritePageD5x 1]
        (setLockRegionsSt geoD2x [true]
          (setSecuritySt (setBorSt true (setBodSt false initSt))))).bod.dirty = true) ∧
    ((applyOps geoD2x env1 2 6
        [FlashOp.opWriteOptionsD2x, FlashOp.opWritePageD2x 1,
         FlashOp.opWriteOptionsD5x, FlashOp.opWritePageD5x 1]
        (setLockRegionsSt geoD2x [true]
          (setSecuritySt (setBorSt true (setBodSt false initSt))))).bor.dirty = true) ∧
    ((applyOps geoD2x env1 2 6
        [FlashOp.opWriteOptionsD2x, FlashOp.opWritePageD2x 1,
         FlashOp.opWriteOptionsD5x, FlashOp.opWritePageD5x 1]
        (setLockRegionsSt geoD2x [true]
          (setSecuritySt (setBorSt true (setBodSt false initSt))))).security.dirty = true) ∧
    ((applyOps geoD2x env1 2 6
        [FlashOp.opWriteOptionsD2x, FlashOp.opWritePageD2x 1,
         FlashOp.opWriteOptionsD5x, FlashOp.opWritePageD5x 1]
        (setLockRegionsSt geoD2x [true]
          (setSecuritySt (setBorSt true (setBodSt false initSt))))).regions.dirty = true) := by
  have h := c10_dirty_persistence geoD2x env1 2 6
    [FlashOp.opWriteOptionsD2x, FlashOp.opWritePageD2x 1,
     FlashOp.opWriteOptionsD5x, FlashOp.opWritePageD5x 1]
    (setLockRegionsSt geoD2x [true]
      (setSecuritySt (setBorSt true (setBodSt false initSt))))
  exact ⟨h.1 rfl, h.2.1 rfl, h.2.2.1 rfl, h.2.2.2 rfl⟩
